import Mathlib

/-!
Verification of the percona-backup-mongodb physical-restore engine
(`pbm/restore` package, file with `PhysRestore`, plus the agent's
`restorePhysical` and the `pbm` package data model).

The Go source is shallowly embedded: machine integers (`int64` offsets,
lengths, unix timestamps) are modelled as `Int` (no arithmetic in the
modelled code can overflow 64 bits on realistic inputs), storage is a
partial map from object names to string contents, and the effectful
control flow of `Snapshot` / `toState` is modelled by explicit
environments that provide the outcome of each externally-effectful step
together with event traces recording every storage write.  Map mutation
(Go maps are reference values) is modelled by an explicit heap of maps so
that the aliasing discipline of `copyMap` is visible.
-/

namespace pbm

/-- Status mirrors `pbm.Status` (pbm/pbm.go, `type Status string` and its
constants). -/
inductive Status
  | init
  | ready
  | down
  | starting
  | running
  | dumpDone
  | partlyDone
  | done
  | cancelled
  | error
  deriving DecidableEq, Repr

/-- String value of each `pbm.Status` constant (pbm/pbm.go lines 590-604;
note `StatusCancelled` is spelled "canceled" in the source). -/
def statusStr : Status → String
  | .init => "init"
  | .ready => "ready"
  | .down => "down"
  | .starting => "starting"
  | .running => "running"
  | .dumpDone => "dumpDone"
  | .partlyDone => "partlyDone"
  | .done => "done"
  | .cancelled => "canceled"
  | .error => "error"

/-- File mirrors `pbm.File` (pbm/pbm.go lines 557-564): `Name`, `Off`,
`Len`, `Size` (int64) and the permission bits `Fmode` (a Nat here). -/
structure File where
  Name : String
  Off : Int
  Len : Int
  Size : Int
  Fmode : Nat
  deriving DecidableEq, Repr

/-- BackupReplset keeps the fields of `pbm.BackupReplset` used by the
physical restore: the replica-set name and its file lists. -/
structure BackupReplset where
  Name : String
  Files : List File
  Journal : List File
  deriving DecidableEq, Repr

/-- BackupMeta keeps the fields of `pbm.BackupMeta` used by the physical
restore: name, incremental source link, per-replset sections, compression
(held abstractly as the codec's name), status and versions. -/
structure BackupMeta where
  Name : String
  SrcBackup : String
  Replsets : List BackupReplset
  Compression : String
  Status : Status
  PBMVersion : String
  MongoVersion : String
  deriving DecidableEq, Repr

end pbm

/-! ## Go path helpers

Models of the Go stdlib `path`/`filepath` functions the restore code uses,
restricted to clean slash-separated paths (no `.`/`..` segments and no
duplicate slashes), which is the shape of every path the engine builds. -/

/-- Slash splitter over characters (the `strings.Split(s, "/")`
behaviour the `path` functions rest on). -/
def splitSlash : List Char → List (List Char)
  | [] => [[]]
  | c :: rest =>
      match splitSlash rest with
      | [] => [[]]
      | h :: t => if c = '/' then [] :: h :: t else (c :: h) :: t

/-- Slash joiner over components. -/
def joinSlash : List (List Char) → List Char
  | [] => []
  | [x] => x
  | x :: xs => x ++ '/' :: joinSlash xs

/-- Model of Go `path.Dir` on clean paths: everything before the last
slash; "." when there is no slash, "/" when the dirname is the root. -/
def pathDir (s : String) : String :=
  let comps := splitSlash s.data
  let pre := comps.dropLast
  if pre.isEmpty then "."
  else
    let d := joinSlash pre
    if d.isEmpty then "/" else String.mk d

/-- Model of the first component of Go `path.Split`: everything up to and
including the last slash ("" when the path has no slash). -/
def pathSplitDir (s : String) : String :=
  let comps := splitSlash s.data
  if comps.length ≤ 1 then ""
  else String.mk (joinSlash comps.dropLast ++ ['/'])

/-- Model of Go `filepath.Base` on clean slash paths. -/
def filepathBase (s : String) : String :=
  if s = "" then "."
  else
    match ((splitSlash s.data).filter (fun c => ¬ c.isEmpty)).getLast? with
    | some c => String.mk c
    | none => "/"

/-- Model of Go `filepath.Join` for two elements (no cleaning needed on
the already-clean paths the engine joins). -/
def joinPath (a b : String) : String :=
  if a = "" then b else if b = "" then a else a ++ "/" ++ b

/-- Three-element `filepath.Join`. -/
def joinPath3 (a b c : String) : String := joinPath (joinPath a b) c

/-- Model of Go `strings.TrimPrefix`. -/
def strTrimPref (s pre : String) : String :=
  if pre.data.isPrefixOf s.data then String.mk (s.data.drop pre.data.length) else s

/-- Space predicate of Go `strings.TrimSpace` restricted to the ASCII
whitespace that can occur in a heartbeat body. -/
def isSpaceChar (c : Char) : Bool :=
  c = ' ' || c = '\t' || c = '\n' || c = '\r'

/-- Model of Go `strings.TrimSpace` on the characters of a string. -/
def trimSpaceChars (l : List Char) : List Char :=
  ((l.dropWhile isSpaceChar).reverse.dropWhile isSpaceChar).reverse

/-- Accumulator pass of the decimal parser: all characters must be ASCII
digits. -/
def parseDigitsAux : List Char → Nat → Option Nat
  | [], acc => some acc
  | c :: rest, acc =>
      if '0' ≤ c ∧ c ≤ '9' then
        parseDigitsAux rest (acc * 10 + (c.toNat - '0'.toNat))
      else none

/-- Decimal integer parser over characters: optional sign then at least
one digit. -/
def parseDec : List Char → Option Int
  | [] => none
  | '+' :: rest =>
      if rest = [] then none else (parseDigitsAux rest 0).map (fun n => (n : Int))
  | '-' :: rest =>
      if rest = [] then none else (parseDigitsAux rest 0).map (fun n => -(n : Int))
  | l => (parseDigitsAux l 0).map (fun n => (n : Int))

/-- Model of `strconv.ParseInt(strings.TrimSpace(s), 10, 0)` as used on
heartbeat bodies (the int64 range check is immaterial for timestamps). -/
def parseInt (s : String) : Option Int := parseDec (trimSpaceChars s.data)

/-! ## Storage and errors -/

/-- Stg models the object-storage capability used as rendezvous substrate:
a name either resolves to the object's contents or does not exist
(`storage.ErrNotExist`).  `storage.ErrEmpty` and transient I/O faults of
the backing store are not modelled. -/
structure Stg where
  files : String → Option String

/-- GErr models the `error` values flowing through the restore:
`ErrNoDataForShard`, the structured `nodeErr{node, msg}` of waitFiles,
the "stuck, last beat ts: %d" heartbeat error of checkHB, plain
`errors.New`/`errors.Errorf` errors (by message), and `errors.Wrap`
(which preserves the cause, so `errors.Is` looks through it). -/
inductive GErr
  | noDataForShard
  | nodeFail (node msg : String)
  | stuck (lastBeat : Int)
  | base (msg : String)
  | wrap (ctx : String) (e : GErr)
  deriving DecidableEq, Repr

/-- Model of `errors.Is(err, ErrNoDataForShard)`: true exactly when the
wrap chain bottoms out at `ErrNoDataForShard`. -/
def GErr.isNoData : GErr → Bool
  | .noDataForShard => true
  | .nodeFail _ _ => false
  | .stuck _ => false
  | .base _ => false
  | .wrap _ e => e.isNoData

/-- hbFrameSec mirrors `const hbFrameSec = 60 * 2` (the heartbeat period,
in seconds). -/
def hbFrameSec : Int := 60 * 2

/-- syncHbSuffix mirrors `const syncHbSuffix = "hb"`. -/
def syncHbSuffix : String := "hb"

/-- checkHB mirrors `PhysRestore.checkHB`: if the heartbeat file does not
exist, the peer is stuck when `startTS + hbFrameSec*2 < now`; otherwise
its contents are parsed as a unix timestamp `t` and the peer is stuck
when `t + hbFrameSec*2 < now`.  Unparseable contents yield a decode
error.  `none` means the heartbeat is fresh. -/
def checkHB (stg : Stg) (startTS now : Int) (file : String) : Option GErr :=
  match stg.files file with
  | none =>
      if startTS + hbFrameSec * 2 < now then some (GErr.stuck startTS) else none
  | some b =>
      match parseInt b with
      | none => some (GErr.base "decode")
      | some t =>
          if t + hbFrameSec * 2 < now then some (GErr.stuck t) else none

/-- C9: checkHB declares a peer stuck exactly when either the heartbeat
file exists with recorded timestamp `t` and `t + 240 < now`, or the file
does not exist and `startTS + 240 < now`, where 240 s is twice the
120-second heartbeat period. -/
theorem C9_checkHB_stuck_iff :
    hbFrameSec = 120 ∧ hbFrameSec * 2 = 240 ∧
    (∀ (stg : Stg) (startTS now : Int) (file : String),
      stg.files file = none →
      ((∃ t, checkHB stg startTS now file = some (GErr.stuck t)) ↔ startTS + 240 < now)) ∧
    (∀ (stg : Stg) (startTS now : Int) (file : String) (c : String) (t : Int),
      stg.files file = some c → parseInt c = some t →
      ((∃ t', checkHB stg startTS now file = some (GErr.stuck t')) ↔ t + 240 < now)) := by
  have h240 : hbFrameSec * 2 = 240 := by norm_num [hbFrameSec]
  refine ⟨by norm_num [hbFrameSec], h240, ?_, ?_⟩
  · intro stg startTS now file h
    simp only [checkHB, h, h240]
    by_cases hc : startTS + 240 < now
    · simp [hc]
    · simp [hc]
  · intro stg startTS now file c t hc hp
    simp only [checkHB, hc, hp, h240]
    by_cases hlt : t + 240 < now
    · simp [hlt]
    · simp [hlt]

/-- Witness for C9 at a concrete storage: a heartbeat written at t = 0 is
stuck when observed at now = 241, and a missing heartbeat with restore
start 10 is stuck at now = 251. -/
theorem C9_checkHB_stuck_iff_witness :
    (∃ t', checkHB ⟨fun n => if n = "a.hb" then some "0" else none⟩ 10 241 "a.hb"
        = some (GErr.stuck t')) ∧
    (∃ t, checkHB ⟨fun _ => none⟩ 10 251 "b.hb" = some (GErr.stuck t)) := by
  constructor
  · exact (C9_checkHB_stuck_iff.2.2.2 ⟨fun n => if n = "a.hb" then some "0" else none⟩
      10 241 "a.hb" "0" 0 rfl (by decide)).mpr (by decide)
  · exact (C9_checkHB_stuck_iff.2.2.1 ⟨fun _ => none⟩ 10 251 "b.hb" rfl).mpr (by decide)

/-! ## waitFiles (PhysRestore.waitFiles) -/

open pbm

/-- WFAcc is the loop state of `waitFiles` during one polling tick: the
objects not yet deleted from the awaited map, plus the `curErr`,
`haveDone` and `retStatus` variables that live across ticks. -/
structure WFAcc where
  keep : List String
  curErr : Option GErr
  haveDone : Bool
  retStatus : Status
  deriving DecidableEq, Repr

/-- wfPass mirrors one full `for f := range objs` sweep of
`PhysRestore.waitFiles`.  For each awaited object it checks, in order,
the `.error` sibling (fatal for a non-`done` wait, otherwise recorded in
`curErr` and the peer deleted), the heartbeat via `checkHB` (same
policy), then the `.<status>` object and — for a `done` wait — the
`.partlyDone` object.  A fatal return carries the error together with
the residual awaited map. -/
def wfPass (stg : Stg) (status : Status) (startTS now : Int) :
    List String → WFAcc → Except (GErr × List String) WFAcc
  | [], acc => .ok acc
  | f :: rest, acc =>
      match stg.files (f ++ "." ++ statusStr Status.error) with
      | some b =>
          let e := GErr.nodeFail (filepathBase f) b
          if status ≠ Status.done then .error (e, acc.keep ++ f :: rest)
          else wfPass stg status startTS now rest { acc with curErr := some e }
      | none =>
          match checkHB stg startTS now (f ++ "." ++ syncHbSuffix) with
          | some he =>
              let e := GErr.wrap ("check heartbeat in " ++ f ++ "." ++ syncHbSuffix) he
              if status ≠ Status.done then .error (e, acc.keep ++ f :: rest)
              else wfPass stg status startTS now rest { acc with curErr := some e }
          | none =>
              if (stg.files (f ++ "." ++ statusStr status)).isSome then
                wfPass stg status startTS now rest { acc with haveDone := true }
              else if status ≠ Status.done then
                wfPass stg status startTS now rest { acc with keep := acc.keep ++ [f] }
              else if (stg.files (f ++ "." ++ statusStr Status.partlyDone)).isSome then
                wfPass stg status startTS now rest
                  { acc with haveDone := true, retStatus := Status.partlyDone }
              else
                wfPass stg status startTS now rest { acc with keep := acc.keep ++ [f] }

/-- waitLoop mirrors the 5-second ticker loop of `waitFiles`, with fuel
bounding the number of ticks (the storage is observed as constant, so
`none` models a wait that has not completed).  The second component is
the residual awaited map, reflecting the destructive deletes. -/
def waitLoop (stg : Stg) (status : Status) (startTS now : Int) (cluster : Bool) :
    Nat → List String → Option GErr → Bool → Status →
    Option (Status × Option GErr) × List String
  | 0, objs, _, _, _ => (none, objs)
  | Nat.succ n, objs, curErr, haveDone, retStatus =>
      match wfPass stg status startTS now objs ⟨[], curErr, haveDone, retStatus⟩ with
      | .error (e, residual) => (some (Status.error, some e), residual)
      | .ok acc =>
          if acc.keep.isEmpty then
            match acc.curErr with
            | none => (some (acc.retStatus, none), acc.keep)
            | some ce =>
                if acc.haveDone && !cluster then (some (Status.partlyDone, none), acc.keep)
                else (some (Status.error, some ce), acc.keep)
          else
            waitLoop stg status startTS now cluster n acc.keep acc.curErr acc.haveDone acc.retStatus

/-- waitFiles mirrors `PhysRestore.waitFiles`: empty maps are rejected,
otherwise the polling loop runs with `retStatus` initialised to the
awaited status and no recorded error. -/
def waitFiles (stg : Stg) (status : Status) (startTS now : Int) (cluster : Bool)
    (fuel : Nat) (objs : List String) : Option (Status × Option GErr) × List String :=
  if objs.isEmpty then (some (Status.error, some (GErr.base "empty objects maps")), objs)
  else waitLoop stg status startTS now cluster fuel objs none false status

/-- peerErr names the error `waitFiles` associates with an awaited object
in one sweep: the `.error` sibling's body as a `nodeErr`, else a
heartbeat failure wrapped with the object's name, else nothing. -/
def peerErr (stg : Stg) (startTS now : Int) (f : String) : Option GErr :=
  match stg.files (f ++ "." ++ statusStr Status.error) with
  | some b => some (GErr.nodeFail (filepathBase f) b)
  | none =>
      match checkHB stg startTS now (f ++ "." ++ syncHbSuffix) with
      | some he => some (GErr.wrap ("check heartbeat in " ++ f ++ "." ++ syncHbSuffix) he)
      | none => none

/-- doneSat: the object's `.done` sibling exists. -/
def doneSat (stg : Stg) (f : String) : Bool :=
  (stg.files (f ++ "." ++ statusStr Status.done)).isSome

/-- partlySat: the object's `.partlyDone` sibling exists. -/
def partlySat (stg : Stg) (f : String) : Bool :=
  (stg.files (f ++ "." ++ statusStr Status.partlyDone)).isSome

/-- resolvesDone: during a `done` wait this object is settled in a single
sweep (peer error, stale heartbeat, `.done` or `.partlyDone` present). -/
def resolvesDone (stg : Stg) (startTS now : Int) (f : String) : Bool :=
  (peerErr stg startTS now f).isSome || doneSat stg f || partlySat stg f

/-- partlyTrigger: the object is satisfied only through `.partlyDone`,
which demotes `retStatus`. -/
def partlyTrigger (stg : Stg) (startTS now : Int) (f : String) : Bool :=
  (peerErr stg startTS now f).isNone && !doneSat stg f && partlySat stg f

/-- finalCurErr folds the successive overwrites of the `curErr` variable
over a sweep: the last awaited object with a peer error wins. -/
def finalCurErr (stg : Stg) (startTS now : Int) : List String → Option GErr → Option GErr
  | [], c => c
  | f :: rest, c =>
      match peerErr stg startTS now f with
      | some e => finalCurErr stg startTS now rest (some e)
      | none => finalCurErr stg startTS now rest c

theorem finalCurErr_getLast (stg : Stg) (startTS now : Int) :
    ∀ (objs : List String) (c : Option GErr),
      finalCurErr stg startTS now objs c =
        match (objs.filter fun f => (peerErr stg startTS now f).isSome).getLast? with
        | some g => peerErr stg startTS now g
        | none => c := by
  intro objs
  induction objs with
  | nil => intro c; rfl
  | cons f rest ih =>
      intro c
      by_cases hf : (peerErr stg startTS now f).isSome
      · obtain ⟨e, he⟩ := Option.isSome_iff_exists.mp hf
        simp only [finalCurErr, he, List.filter_cons, hf]
        rw [ih (some e)]
        cases hrest : (rest.filter fun f => (peerErr stg startTS now f).isSome) with
        | nil =>
            show some e = (match [f].getLast? with
              | some g => peerErr stg startTS now g
              | none => c)
            rw [show [f].getLast? = some f from rfl]
            exact he.symm
        | cons x xs =>
            rw [if_pos (by simp)]
            simp only [List.getLast?_cons_cons]
            cases hl : (x :: xs).getLast? with
            | none => exact absurd hl (by simp)
            | some g => rfl
      · have hnone : peerErr stg startTS now f = none := Option.not_isSome_iff_eq_none.mp hf
        simp only [finalCurErr, hnone, List.filter_cons, hf]
        rw [ih c]
        simp

theorem wfPass_done_resolved (stg : Stg) (startTS now : Int) :
    ∀ (objs : List String) (acc : WFAcc),
      (∀ f ∈ objs, resolvesDone stg startTS now f = true) →
      wfPass stg Status.done startTS now objs acc =
        .ok ⟨acc.keep,
             finalCurErr stg startTS now objs acc.curErr,
             acc.haveDone || objs.any (fun f => (peerErr stg startTS now f).isNone),
             if objs.any (partlyTrigger stg startTS now) then Status.partlyDone
             else acc.retStatus⟩ := by
  intro objs
  induction objs with
  | nil => intro acc _; simp [wfPass, finalCurErr]
  | cons f rest ih =>
      intro acc hres
      have hfres := hres f (List.mem_cons_self f rest)
      have hrest : ∀ g ∈ rest, resolvesDone stg startTS now g = true :=
        fun g hg => hres g (List.mem_cons_of_mem f hg)
      cases herr : stg.files (f ++ "." ++ statusStr Status.error) with
      | some b =>
          have hpe : peerErr stg startTS now f = some (GErr.nodeFail (filepathBase f) b) := by
            simp [peerErr, herr]
          simp only [wfPass, herr]
          rw [if_neg (by simp)]
          rw [ih _ hrest]
          simp [finalCurErr, hpe, partlyTrigger, List.any_cons]
      | none =>
          cases hhb : checkHB stg startTS now (f ++ "." ++ syncHbSuffix) with
          | some he =>
              have hpe : peerErr stg startTS now f =
                  some (GErr.wrap ("check heartbeat in " ++ f ++ "." ++ syncHbSuffix) he) := by
                simp [peerErr, herr, hhb]
              simp only [wfPass, herr, hhb]
              rw [if_neg (by simp)]
              rw [ih _ hrest]
              simp [finalCurErr, hpe, partlyTrigger, List.any_cons]
          | none =>
              have hpe : peerErr stg startTS now f = none := by
                simp [peerErr, herr, hhb]
              cases hdone : stg.files (f ++ "." ++ statusStr Status.done) with
              | some v =>
                  simp only [wfPass, herr, hhb]
                  rw [if_pos (by simp [hdone])]
                  rw [ih _ hrest]
                  have htr : partlyTrigger stg startTS now f = false := by
                    simp [partlyTrigger, doneSat, hdone]
                  simp [finalCurErr, hpe, htr, List.any_cons]
              | none =>
                  have hpart : partlySat stg f = true := by
                    have := hfres
                    simp [resolvesDone, hpe, doneSat, hdone] at this
                    exact this
                  have hpsome : (stg.files (f ++ "." ++ statusStr Status.partlyDone)).isSome := by
                    simpa [partlySat] using hpart
                  simp only [wfPass, herr, hhb]
                  rw [if_neg (by simp [hdone])]
                  rw [if_neg (by simp)]
                  rw [if_pos hpsome]
                  rw [ih _ hrest]
                  have htr : partlyTrigger stg startTS now f = true := by
                    simp [partlyTrigger, hpe, doneSat, hdone, hpart]
                  simp [finalCurErr, hpe, htr, List.any_cons]

theorem wfPass_err_fatal (stg : Stg) (status : Status) (startTS now : Int)
    (hstat : status ≠ Status.done) :
    ∀ (pre : List String) (f : String) (post : List String) (b : String) (acc : WFAcc),
      (∀ g ∈ pre, stg.files (g ++ "." ++ statusStr Status.error) = none) →
      (∀ g ∈ pre, checkHB stg startTS now (g ++ "." ++ syncHbSuffix) = none) →
      stg.files (f ++ "." ++ statusStr Status.error) = some b →
      ∃ resid, wfPass stg status startTS now (pre ++ f :: post) acc =
        .error (GErr.nodeFail (filepathBase f) b, resid) := by
  intro pre
  induction pre with
  | nil =>
      intro f post b acc _ _ hf
      refine ⟨acc.keep ++ f :: post, ?_⟩
      simp only [List.nil_append, wfPass, hf]
      rw [if_pos hstat]
  | cons g rest ih =>
      intro f post b acc hne hnh hf
      have hg1 : stg.files (g ++ "." ++ statusStr Status.error) = none :=
        hne g (List.mem_cons_self g rest)
      have hg2 : checkHB stg startTS now (g ++ "." ++ syncHbSuffix) = none :=
        hnh g (List.mem_cons_self g rest)
      have hne' : ∀ x ∈ rest, stg.files (x ++ "." ++ statusStr Status.error) = none :=
        fun x hx => hne x (List.mem_cons_of_mem g hx)
      have hnh' : ∀ x ∈ rest, checkHB stg startTS now (x ++ "." ++ syncHbSuffix) = none :=
        fun x hx => hnh x (List.mem_cons_of_mem g hx)
      simp only [List.cons_append, wfPass, hg1, hg2]
      by_cases hsf : (stg.files (g ++ "." ++ statusStr status)).isSome
      · rw [if_pos hsf]
        exact ih f post b _ hne' hnh' hf
      · rw [if_neg hsf]
        rw [if_pos hstat]
        exact ih f post b _ hne' hnh' hf

/-- C4: while waiting for a non-`done` status, the first peer error
object observed causes an immediate error return carrying that peer's
message; while waiting for `done`, a peer's error object or stale
heartbeat only removes that peer from the awaited set, a replica-set
level wait (`cluster = false`) returns partly-done when at least one
awaited peer reached done despite some peer error, and if no peer
reached done (or the wait is cluster-level) the recorded (last observed)
peer error is returned as the result. -/
theorem C4_waitFiles_error_policy :
    (∀ (stg : Stg) (status : Status) (startTS now : Int) (cluster : Bool) (fuel : Nat)
       (pre : List String) (f : String) (post : List String) (b : String),
      status ≠ Status.done →
      (∀ g ∈ pre, stg.files (g ++ "." ++ statusStr Status.error) = none) →
      (∀ g ∈ pre, checkHB stg startTS now (g ++ "." ++ syncHbSuffix) = none) →
      stg.files (f ++ "." ++ statusStr Status.error) = some b →
      (waitFiles stg status startTS now cluster (fuel + 1) (pre ++ f :: post)).1
        = some (Status.error, some (GErr.nodeFail (filepathBase f) b))) ∧
    (∀ (stg : Stg) (startTS now : Int) (cluster : Bool) (fuel : Nat) (objs : List String),
      objs ≠ [] →
      (∀ f ∈ objs, resolvesDone stg startTS now f = true) →
      ((objs.filter fun f => (peerErr stg startTS now f).isSome) = [] →
        (waitFiles stg Status.done startTS now cluster (fuel + 1) objs).1
          = some ((if objs.any (partlyTrigger stg startTS now) then Status.partlyDone
                   else Status.done), none)) ∧
      ((objs.filter fun f => (peerErr stg startTS now f).isSome) ≠ [] →
        (objs.filter fun f => (peerErr stg startTS now f).isNone) ≠ [] → cluster = false →
        (waitFiles stg Status.done startTS now cluster (fuel + 1) objs).1
          = some (Status.partlyDone, none)) ∧
      ((objs.filter fun f => (peerErr stg startTS now f).isSome) ≠ [] →
        ((objs.filter fun f => (peerErr stg startTS now f).isNone) = [] ∨ cluster = true) →
        (waitFiles stg Status.done startTS now cluster (fuel + 1) objs).1
          = some (Status.error,
              ((objs.filter fun f => (peerErr stg startTS now f).isSome).getLast?).bind
                (peerErr stg startTS now)))) := by
  constructor
  · intro stg status startTS now cluster fuel pre f post b hstat hne hnh hf
    obtain ⟨resid, hp⟩ :=
      wfPass_err_fatal stg status startTS now hstat pre f post b ⟨[], none, false, status⟩ hne hnh hf
    have hnonempty : ¬ ((pre ++ f :: post).isEmpty = true) := by
      cases pre <;> simp
    simp only [waitFiles]
    rw [if_neg hnonempty]
    simp only [waitLoop]
    rw [hp]
  · intro stg startTS now cluster fuel objs hne hres
    have hpass := wfPass_done_resolved stg startTS now objs ⟨[], none, false, Status.done⟩ hres
    have hnonempty : ¬ (objs.isEmpty = true) := by
      cases objs with
      | nil => exact absurd rfl hne
      | cons x xs => simp
    have hcur := finalCurErr_getLast stg startTS now objs (none : Option GErr)
    refine ⟨?_, ?_, ?_⟩
    · intro herrs
      simp only [waitFiles]
      rw [if_neg hnonempty]
      simp only [waitLoop]
      rw [hpass]
      rw [herrs] at hcur
      simp only [List.getLast?_nil] at hcur
      simp [hcur]
    · intro herrs hdones hcl
      simp only [waitFiles]
      rw [if_neg hnonempty]
      simp only [waitLoop]
      rw [hpass]
      cases hlast : (objs.filter fun f => (peerErr stg startTS now f).isSome).getLast? with
      | none =>
          exact absurd (List.getLast?_eq_none_iff.mp hlast) herrs
      | some g =>
          rw [hlast] at hcur
          have hcur' : finalCurErr stg startTS now objs none = peerErr stg startTS now g := hcur
          have hg : (peerErr stg startTS now g).isSome = true := by
            have hmem : g ∈ objs.filter fun f => (peerErr stg startTS now f).isSome :=
              List.mem_of_mem_getLast? hlast
            exact (List.mem_filter.mp hmem).2
          obtain ⟨e, he⟩ := Option.isSome_iff_exists.mp hg
          rw [he] at hcur'
          have hhave : objs.any (fun f => (peerErr stg startTS now f).isNone) = true := by
            obtain ⟨d, hd⟩ := List.exists_mem_of_ne_nil _ hdones
            have := List.mem_filter.mp hd
            exact List.any_eq_true.mpr ⟨d, this.1, this.2⟩
          simp [hcur', hhave, hcl]
    · intro herrs hdc
      simp only [waitFiles]
      rw [if_neg hnonempty]
      simp only [waitLoop]
      rw [hpass]
      cases hlast : (objs.filter fun f => (peerErr stg startTS now f).isSome).getLast? with
      | none =>
          exact absurd (List.getLast?_eq_none_iff.mp hlast) herrs
      | some g =>
          rw [hlast] at hcur
          have hcur' : finalCurErr stg startTS now objs none = peerErr stg startTS now g := hcur
          have hg : (peerErr stg startTS now g).isSome = true := by
            have hmem : g ∈ objs.filter fun f => (peerErr stg startTS now f).isSome :=
              List.mem_of_mem_getLast? hlast
            exact (List.mem_filter.mp hmem).2
          obtain ⟨e, he⟩ := Option.isSome_iff_exists.mp hg
          rw [he] at hcur'
          cases hdc with
          | inl hdones =>
              have hhave : objs.any (fun f => (peerErr stg startTS now f).isNone) = false := by
                rw [List.any_eq_false]
                intro d hd
                intro hdn
                have : d ∈ objs.filter fun f => (peerErr stg startTS now f).isNone :=
                  List.mem_filter.mpr ⟨hd, by simpa using hdn⟩
                rw [hdones] at this
                exact absurd this (List.not_mem_nil d)
              simp [hcur', hhave, he]
          | inr hcl =>
              subst hcl
              simp [hcur', he]

/-- Witness for C4: a `starting` wait aborts on the peer error object
with its message, while a replica-set `done` wait over one failed and
one finished peer converges to partly-done. -/
theorem C4_waitFiles_error_policy_witness :
    (waitFiles ⟨fun n => if n = "a.error" then some "9:boom" else none⟩
        Status.starting 0 0 false 1 ["a"]).1
      = some (Status.error, some (GErr.nodeFail (filepathBase "a") "9:boom")) ∧
    (waitFiles ⟨fun n => if n = "a.error" then some "9:boom" else
                         if n = "b.done" then some "9" else none⟩
        Status.done 0 0 false 1 ["a", "b"]).1
      = some (Status.partlyDone, none) := by
  constructor
  · exact C4_waitFiles_error_policy.1
      ⟨fun n => if n = "a.error" then some "9:boom" else none⟩
      Status.starting 0 0 false 0 [] "a" [] "9:boom"
      (by decide) (by intro g hg; exact absurd hg (List.not_mem_nil g))
      (by intro g hg; exact absurd hg (List.not_mem_nil g)) (by decide)
  · exact (C4_waitFiles_error_policy.2
      ⟨fun n => if n = "a.error" then some "9:boom" else
                if n = "b.done" then some "9" else none⟩
      0 0 false 0 ["a", "b"] (by decide) (by decide)).2.1 (by decide) (by decide) rfl

/-! ## Heap of maps, copyMap, and toState (PhysRestore.toState)

Go maps are reference values: `waitFiles` deletes entries from the map it
is handed, so whether `toState` passes the receiver's map or a copy is
observable.  The heap makes this explicit: `PhysRestore.syncPathPeers`
and `syncPathShards` live at fixed indices of a store of maps (a map is
its entry list), `copyMap` allocates a fresh index with the same
entries, and `waitFilesH` writes the residual entries back through the
index it was handed. -/

/-- SB distinguishes `okStatus()` bodies from `errStatus(err)` bodies of
rendezvous writes. -/
inductive SB
  | ok
  | errB
  deriving DecidableEq, Repr

/-- Event records one observable action of the restore: a storage write,
a waitFiles call (with the awaited objects), a toState call, or a wipe
of the data directory. -/
inductive Event
  | save (path : String) (body : SB)
  | wait (status : Status) (objs : List String) (cluster : Bool)
  | toStateCall (status : Status)
  | wipeDbpath
  deriving DecidableEq, Repr

/-- Heap is a store of Go maps (push-only allocation, in-place update). -/
structure Heap where
  store : List (List String)
  deriving DecidableEq, Repr

/-- Entries of the map at index `i` (a dangling index reads as empty). -/
def Heap.get (h : Heap) (i : Nat) : List String := h.store.getD i []

/-- Overwrite the map at index `i`. -/
def Heap.set (h : Heap) (i : Nat) (v : List String) : Heap := ⟨h.store.set i v⟩

/-- Allocate a fresh map, returning the new heap and its index. -/
def Heap.alloc (h : Heap) (v : List String) : Heap × Nat :=
  (⟨h.store ++ [v]⟩, h.store.length)

/-- copyMap mirrors the generic `copyMap` helper of the restore package:
a fresh map with the same entries. -/
def copyMap (h : Heap) (i : Nat) : Heap × Nat := h.alloc (h.get i)

/-- waitFilesH runs `waitFiles` on the map referenced by `i` and stores
the residual entries back through that reference (the destructive
`delete(objs, f)` calls of the source). -/
def waitFilesH (stg : Stg) (status : Status) (startTS now : Int) (cluster : Bool)
    (fuel : Nat) (h : Heap) (i : Nat) : Heap × Option (Status × Option GErr) :=
  let r := waitFiles stg status startTS now cluster fuel (h.get i)
  (h.set i r.2, r.1)

/-- RConf carries the receiver fields of `PhysRestore` that `toState`,
`Snapshot` and `MarkFailed` consult: leadership flags, the rendezvous
paths, and the heap indices of the two mutable map fields. -/
structure RConf where
  isPrimary : Bool
  isClusterLeader : Bool
  syncPathNode : String
  syncPathRS : String
  syncPathCluster : String
  peersId : Nat
  shardsId : Nat

/-- toStateDeferEvents mirrors the deferred error publication of
`toState`: on an error return, the primary writes the replica-set error
object and the cluster leader the cluster error object — but never for
status `done`. -/
def toStateDeferEvents (cfg : RConf) (status : Status) : List Event :=
  (if cfg.isPrimary ∧ status ≠ Status.done then
    [Event.save (cfg.syncPathRS ++ "." ++ statusStr Status.error) SB.errB]
  else [])
  ++ (if cfg.isClusterLeader ∧ status ≠ Status.done then
    [Event.save (cfg.syncPathCluster ++ "." ++ statusStr Status.error) SB.errB]
  else [])

/-- syncStage factors the two identical wait-then-publish blocks of
`toState` (peers then shards): copy the awaited map, wait on it, and on
success write `savePath.<observed>`; an error is wrapped with `wrapMsg`
and triggers the deferred error writes; a wait that never converges
yields `some none`. -/
def syncStage (stg : Stg) (status : Status) (startTS now : Int) (fuel : Nat)
    (cluster : Bool) (wrapMsg savePath : String) (cfg : RConf)
    (h : Heap) (srcId : Nat) (evs : List Event) :
    Heap × List Event × Option (Option (Except GErr Status)) :=
  let hc := copyMap h srcId
  let objs := hc.1.get hc.2
  let wr := waitFilesH stg status startTS now cluster fuel hc.1 hc.2
  let evs' := evs ++ [Event.wait status objs cluster]
  (wr.1,
   match wr.2 with
   | none => (evs', some none)
   | some (_, some e) =>
       (evs' ++ toStateDeferEvents cfg status,
        some (some (Except.error (GErr.wrap wrapMsg e))))
   | some (cstat, none) =>
       (evs' ++ [Event.save (savePath ++ "." ++ statusStr cstat) SB.ok], none))

/-- toState mirrors `PhysRestore.toState`: write the node status object;
if primary or the status is `done`, wait for all replica-set peers and
write the replica-set status; if cluster leader or the status is `done`,
wait for all shards and write the cluster status; finally wait on the
cluster status object and return the observed status.  The result is
`none` when a wait never converges; errors carry the source's wrap
messages. -/
def toState (stg : Stg) (fuel : Nat) (startTS now : Int) (cfg : RConf) (h : Heap)
    (status : Status) : Heap × Option (Except GErr Status) × List Event :=
  let evs0 := [Event.save (cfg.syncPathNode ++ "." ++ statusStr status) SB.ok]
  let st1 :=
    if cfg.isPrimary || status == Status.done then
      syncStage stg status startTS now fuel false "wait for nodes in rs"
        cfg.syncPathRS cfg h cfg.peersId evs0
    else (h, evs0, none)
  match st1 with
  | (h1, evs1, some r) => (h1, r, evs1)
  | (h1, evs1, none) =>
      let st2 :=
        if cfg.isClusterLeader || status == Status.done then
          syncStage stg status startTS now fuel true "wait for shards"
            cfg.syncPathCluster cfg h1 cfg.shardsId evs1
        else (h1, evs1, none)
      match st2 with
      | (h2, evs2, some r) => (h2, r, evs2)
      | (h2, evs2, none) =>
          let ha := Heap.alloc h2 [cfg.syncPathCluster]
          let wr := waitFilesH stg status startTS now true fuel ha.1 ha.2
          let evs3 := evs2 ++ [Event.wait status [cfg.syncPathCluster] true]
          (wr.1,
           match wr.2 with
           | none => (none, evs3)
           | some (_, some e) =>
               (some (Except.error (GErr.wrap "wait for shards" e)),
                evs3 ++ toStateDeferEvents cfg status)
           | some (cstat, none) => (some (Except.ok cstat), evs3))

theorem listGetD_set_ne {α : Type} (d : α) :
    ∀ (l : List α) (i j : Nat) (v : α), i ≠ j → (l.set i v).getD j d = l.getD j d := by
  intro l
  induction l with
  | nil => intro i j v _; rfl
  | cons a t ih =>
      intro i j v hij
      cases i with
      | zero =>
          cases j with
          | zero => exact absurd rfl hij
          | succ k => rfl
      | succ m =>
          cases j with
          | zero => rfl
          | succ k => exact ih m k v (fun h => hij (by rw [h]))

theorem listGetD_append_lt {α : Type} (d : α) :
    ∀ (l : List α) (v : α) (j : Nat), j < l.length → (l ++ [v]).getD j d = l.getD j d := by
  intro l
  induction l with
  | nil => intro v j hj; exact absurd hj (by simp)
  | cons a t ih =>
      intro v j hj
      cases j with
      | zero => rfl
      | succ k => exact ih v k (by simpa using hj)

theorem listGetD_append_at {α : Type} (d : α) :
    ∀ (l : List α) (v : α), (l ++ [v]).getD l.length d = v := by
  intro l
  induction l with
  | nil => intro v; rfl
  | cons a t ih => intro v; exact ih v

theorem Heap.get_set_ne (h : Heap) (i j : Nat) (v : List String) (hij : i ≠ j) :
    (h.set i v).get j = h.get j := listGetD_set_ne [] h.store i j v hij

theorem Heap.get_alloc_lt (h : Heap) (v : List String) (j : Nat) (hj : j < h.store.length) :
    ((h.alloc v).1).get j = h.get j := listGetD_append_lt [] h.store v j hj

theorem Heap.get_alloc_at (h : Heap) (v : List String) :
    ((h.alloc v).1).get (h.alloc v).2 = v := listGetD_append_at [] h.store v

theorem Heap.length_set (h : Heap) (i : Nat) (v : List String) :
    (h.set i v).store.length = h.store.length := by
  simp [Heap.set]

theorem Heap.length_alloc (h : Heap) (v : List String) :
    ((h.alloc v).1).store.length = h.store.length + 1 := by
  simp [Heap.alloc]

theorem syncStage_heap (stg : Stg) (status : Status) (startTS now : Int) (fuel : Nat)
    (cluster : Bool) (wrapMsg savePath : String) (cfg : RConf)
    (h : Heap) (srcId : Nat) (evs : List Event) :
    (syncStage stg status startTS now fuel cluster wrapMsg savePath cfg h srcId evs).1 =
      ((copyMap h srcId).1).set (copyMap h srcId).2
        (waitFiles stg status startTS now cluster fuel
          (((copyMap h srcId).1).get (copyMap h srcId).2)).2 := rfl

theorem syncStage_frame (stg : Stg) (status : Status) (startTS now : Int) (fuel : Nat)
    (cluster : Bool) (wrapMsg savePath : String) (cfg : RConf)
    (h : Heap) (srcId : Nat) (evs : List Event) (j : Nat) (hj : j < h.store.length) :
    ((syncStage stg status startTS now fuel cluster wrapMsg savePath cfg h srcId evs).1).get j
        = h.get j ∧
    h.store.length ≤
      ((syncStage stg status startTS now fuel cluster wrapMsg savePath cfg h srcId evs).1).store.length := by
  rw [syncStage_heap]
  constructor
  · rw [Heap.get_set_ne]
    · exact Heap.get_alloc_lt h _ j hj
    · exact Nat.ne_of_gt (by simpa [copyMap, Heap.alloc] using hj)
  · rw [Heap.length_set]
    simp [copyMap, Heap.alloc]

theorem toState_frame (stg : Stg) (fuel : Nat) (startTS now : Int) (cfg : RConf)
    (h : Heap) (status : Status) (j : Nat) (hj : j < h.store.length) :
    ((toState stg fuel startTS now cfg h status).1).get j = h.get j := by
  simp only [toState]
  set st1 := if cfg.isPrimary || status == Status.done then
      syncStage stg status startTS now fuel false "wait for nodes in rs"
        cfg.syncPathRS cfg h cfg.peersId
        [Event.save (cfg.syncPathNode ++ "." ++ statusStr status) SB.ok]
    else (h, [Event.save (cfg.syncPathNode ++ "." ++ statusStr status) SB.ok], none) with hst1
  have h1frame : (st1.1).get j = h.get j ∧ h.store.length ≤ (st1.1).store.length := by
    rw [hst1]
    by_cases hc : (cfg.isPrimary || status == Status.done) = true
    · rw [if_pos hc]
      exact syncStage_frame stg status startTS now fuel false _ _ cfg h cfg.peersId _ j hj
    · rw [if_neg hc]
      exact ⟨rfl, Nat.le_refl _⟩
  have hjl1 : j < (st1.1).store.length := Nat.lt_of_lt_of_le hj h1frame.2
  rcases hs1 : st1 with ⟨h1, evs1, r1⟩
  have h1get : h1.get j = h.get j := by rw [← h1frame.1, hs1]
  have h1len : j < h1.store.length := by
    have := hjl1; rw [hs1] at this; exact this
  cases r1 with
  | some r => simpa using h1get
  | none =>
      simp only []
      set st2 := if cfg.isClusterLeader || status == Status.done then
          syncStage stg status startTS now fuel true "wait for shards"
            cfg.syncPathCluster cfg h1 cfg.shardsId evs1
        else (h1, evs1, none) with hst2
      have h2frame : (st2.1).get j = h1.get j ∧ h1.store.length ≤ (st2.1).store.length := by
        rw [hst2]
        by_cases hc : (cfg.isClusterLeader || status == Status.done) = true
        · rw [if_pos hc]
          exact syncStage_frame stg status startTS now fuel true _ _ cfg h1 cfg.shardsId _ j h1len
        · rw [if_neg hc]
          exact ⟨rfl, Nat.le_refl _⟩
      have hjl2 : j < (st2.1).store.length := Nat.lt_of_lt_of_le h1len h2frame.2
      rcases hs2 : st2 with ⟨h2, evs2, r2⟩
      have h2get : h2.get j = h1.get j := by rw [← h2frame.1, hs2]
      have h2len : j < h2.store.length := by
        have := hjl2; rw [hs2] at this; exact this
      cases r2 with
      | some r => simp only []; rw [h2get, h1get]
      | none =>
          simp only [waitFilesH]
          rw [Heap.get_set_ne]
          · rw [Heap.get_alloc_lt h2 _ j h2len, h2get, h1get]
          · exact Nat.ne_of_gt (by simpa [Heap.alloc] using h2len)

/-- C10: every call to toState leaves the receiver's syncPathPeers and
syncPathShards maps unchanged: waitFiles destructively deletes entries
from the map it is given, but toState always passes a copy made by
copyMap, so repeated toState calls each observe the full peer and shard
sets. -/
theorem C10_toState_preserves_maps (stg : Stg) (fuel : Nat) (startTS now : Int)
    (cfg : RConf) (h : Heap) (status : Status)
    (hp : cfg.peersId < h.store.length) (hs : cfg.shardsId < h.store.length) :
    ((toState stg fuel startTS now cfg h status).1).get cfg.peersId = h.get cfg.peersId ∧
    ((toState stg fuel startTS now cfg h status).1).get cfg.shardsId = h.get cfg.shardsId :=
  ⟨toState_frame stg fuel startTS now cfg h status cfg.peersId hp,
   toState_frame stg fuel startTS now cfg h status cfg.shardsId hs⟩

/-- Witness for C10 at a concrete two-map heap: after a full toState call
both receiver maps still hold their original entries. -/
theorem C10_toState_preserves_maps_witness :
    ((toState ⟨fun _ => none⟩ 1 0 0 ⟨true, true, "n", "r", "c", 0, 1⟩
        ⟨[["p1"], ["s1"]]⟩ Status.starting).1).get 0 = ["p1"] ∧
    ((toState ⟨fun _ => none⟩ 1 0 0 ⟨true, true, "n", "r", "c", 0, 1⟩
        ⟨[["p1"], ["s1"]]⟩ Status.starting).1).get 1 = ["s1"] := by
  have h := C10_toState_preserves_maps ⟨fun _ => none⟩ 1 0 0
    ⟨true, true, "n", "r", "c", 0, 1⟩ ⟨[["p1"], ["s1"]]⟩ Status.starting
    (by decide) (by decide)
  exact ⟨h.1.trans (by decide), h.2.trans (by decide)⟩

theorem syncStage_ok (stg : Stg) (status : Status) (startTS now : Int) (fuel : Nat)
    (cluster : Bool) (wrapMsg savePath : String) (cfg : RConf)
    (h : Heap) (srcId : Nat) (evs : List Event) (st : Status)
    (hw : (waitFiles stg status startTS now cluster fuel (h.get srcId)).1 = some (st, none)) :
    syncStage stg status startTS now fuel cluster wrapMsg savePath cfg h srcId evs =
      (((h.alloc (h.get srcId)).1).set (h.alloc (h.get srcId)).2
         (waitFiles stg status startTS now cluster fuel (h.get srcId)).2,
       (evs ++ [Event.wait status (h.get srcId) cluster]) ++
         [Event.save (savePath ++ "." ++ statusStr st) SB.ok],
       none) := by
  simp only [syncStage, waitFilesH, copyMap, Heap.get_alloc_at]
  rw [hw]

/-- C1: for a target status S in {starting, running, done}, toState first
writes the node-level status object for S; then, if this node is the
replica-set primary or S is done, waits on every peer node's status
object and writes the replica-set-level status; then, if this node is
the cluster leader or S is done, waits on every replica set's status
object and writes the cluster-level status; and finally every node waits
for the cluster-level status object and returns the observed status. -/
theorem C1_toState_protocol (stg : Stg) (fuel : Nat) (startTS now : Int) (cfg : RConf)
    (h : Heap) (S rsStat shStat obs : Status)
    (hS : S = Status.starting ∨ S = Status.running ∨ S = Status.done)
    (hp : cfg.peersId < h.store.length) (hs : cfg.shardsId < h.store.length)
    (hPr : (waitFiles stg S startTS now false fuel (h.get cfg.peersId)).1 = some (rsStat, none))
    (hSh : (waitFiles stg S startTS now true fuel (h.get cfg.shardsId)).1 = some (shStat, none))
    (hCl : (waitFiles stg S startTS now true fuel [cfg.syncPathCluster]).1 = some (obs, none)) :
    (toState stg fuel startTS now cfg h S).2.1 = some (Except.ok obs) ∧
    (toState stg fuel startTS now cfg h S).2.2 =
      [Event.save (cfg.syncPathNode ++ "." ++ statusStr S) SB.ok]
      ++ (if cfg.isPrimary || S == Status.done then
            [Event.wait S (h.get cfg.peersId) false,
             Event.save (cfg.syncPathRS ++ "." ++ statusStr rsStat) SB.ok]
          else [])
      ++ (if cfg.isClusterLeader || S == Status.done then
            [Event.wait S (h.get cfg.shardsId) true,
             Event.save (cfg.syncPathCluster ++ "." ++ statusStr shStat) SB.ok]
          else [])
      ++ [Event.wait S [cfg.syncPathCluster] true] := by
  clear hS
  have main : (toState stg fuel startTS now cfg h S).2 =
      (some (Except.ok obs),
       [Event.save (cfg.syncPathNode ++ "." ++ statusStr S) SB.ok]
       ++ (if cfg.isPrimary || S == Status.done then
             [Event.wait S (h.get cfg.peersId) false,
              Event.save (cfg.syncPathRS ++ "." ++ statusStr rsStat) SB.ok]
           else [])
       ++ (if cfg.isClusterLeader || S == Status.done then
             [Event.wait S (h.get cfg.shardsId) true,
              Event.save (cfg.syncPathCluster ++ "." ++ statusStr shStat) SB.ok]
           else [])
       ++ [Event.wait S [cfg.syncPathCluster] true]) := by
    by_cases hc1 : (cfg.isPrimary || S == Status.done) = true
    · have hA : ((((h.alloc (h.get cfg.peersId)).1).set (h.alloc (h.get cfg.peersId)).2
          (waitFiles stg S startTS now false fuel (h.get cfg.peersId)).2)).get cfg.shardsId
            = h.get cfg.shardsId := by
        rw [Heap.get_set_ne]
        · exact Heap.get_alloc_lt h _ _ hs
        · exact ne_of_gt (by simpa [Heap.alloc] using hs)
      have hAlen : cfg.shardsId <
          ((((h.alloc (h.get cfg.peersId)).1).set (h.alloc (h.get cfg.peersId)).2
            (waitFiles stg S startTS now false fuel (h.get cfg.peersId)).2)).store.length := by
        rw [Heap.length_set, Heap.length_alloc]
        exact Nat.lt_succ_of_lt hs
      have hSh2 : (waitFiles stg S startTS now true fuel
          (((((h.alloc (h.get cfg.peersId)).1).set (h.alloc (h.get cfg.peersId)).2
            (waitFiles stg S startTS now false fuel (h.get cfg.peersId)).2)).get
              cfg.shardsId)).1 = some (shStat, none) := by
        rw [hA]; exact hSh
      simp only [toState]
      rw [if_pos hc1]
      rw [syncStage_ok stg S startTS now fuel false "wait for nodes in rs"
        cfg.syncPathRS cfg h cfg.peersId _ rsStat hPr]
      dsimp only
      by_cases hc2 : (cfg.isClusterLeader || S == Status.done) = true
      · rw [if_pos hc2]
        rw [syncStage_ok stg S startTS now fuel true "wait for shards"
          cfg.syncPathCluster cfg _ cfg.shardsId _ shStat hSh2]
        dsimp only
        simp only [waitFilesH, Heap.get_alloc_at]
        rw [hCl]
        simp [hc1, hc2, hA]
      · rw [if_neg hc2]
        dsimp only
        simp only [waitFilesH, Heap.get_alloc_at]
        rw [hCl]
        simp [hc1, hc2]
    · simp only [toState]
      rw [if_neg hc1]
      dsimp only
      by_cases hc2 : (cfg.isClusterLeader || S == Status.done) = true
      · rw [if_pos hc2]
        rw [syncStage_ok stg S startTS now fuel true "wait for shards"
          cfg.syncPathCluster cfg h cfg.shardsId _ shStat hSh]
        dsimp only
        simp only [waitFilesH, Heap.get_alloc_at]
        rw [hCl]
        simp [hc1, hc2]
      · rw [if_neg hc2]
        dsimp only
        simp only [waitFilesH, Heap.get_alloc_at]
        rw [hCl]
        simp [hc1, hc2]
  exact ⟨by rw [show (toState stg fuel startTS now cfg h S).2.1
            = ((toState stg fuel startTS now cfg h S).2).1 from rfl, main],
         by rw [show (toState stg fuel startTS now cfg h S).2.2
            = ((toState stg fuel startTS now cfg h S).2).2 from rfl, main]⟩

/-- Witness for C1 on a one-node, one-shard rendezvous where all `done`
objects are already present: toState returns the observed `done` and the
trace is node write, peers wait, rs write, shards wait, cluster write,
cluster wait. -/
theorem C1_toState_protocol_witness :
    (toState
      ⟨fun n => if n = "r/rs.rs1/node.n1.done" then some "1"
                else if n = "r/rs.rs1/rs.done" then some "1"
                else if n = "r/cluster.done" then some "1" else none⟩
      1 0 0 ⟨true, true, "r/rs.rs1/node.n1", "r/rs.rs1/rs", "r/cluster", 0, 1⟩
      ⟨[["r/rs.rs1/node.n1"], ["r/rs.rs1/rs"]]⟩ Status.done).2.1
      = some (Except.ok Status.done) ∧
    (toState
      ⟨fun n => if n = "r/rs.rs1/node.n1.done" then some "1"
                else if n = "r/rs.rs1/rs.done" then some "1"
                else if n = "r/cluster.done" then some "1" else none⟩
      1 0 0 ⟨true, true, "r/rs.rs1/node.n1", "r/rs.rs1/rs", "r/cluster", 0, 1⟩
      ⟨[["r/rs.rs1/node.n1"], ["r/rs.rs1/rs"]]⟩ Status.done).2.2
      = [Event.save "r/rs.rs1/node.n1.done" SB.ok,
         Event.wait Status.done ["r/rs.rs1/node.n1"] false,
         Event.save "r/rs.rs1/rs.done" SB.ok,
         Event.wait Status.done ["r/rs.rs1/rs"] true,
         Event.save "r/cluster.done" SB.ok,
         Event.wait Status.done ["r/cluster"] true] := by
  have h := C1_toState_protocol
    ⟨fun n => if n = "r/rs.rs1/node.n1.done" then some "1"
              else if n = "r/rs.rs1/rs.done" then some "1"
              else if n = "r/cluster.done" then some "1" else none⟩
    1 0 0 ⟨true, true, "r/rs.rs1/node.n1", "r/rs.rs1/rs", "r/cluster", 0, 1⟩
    ⟨[["r/rs.rs1/node.n1"], ["r/rs.rs1/rs"]]⟩
    Status.done Status.done Status.done Status.done
    (Or.inr (Or.inr rfl)) (by decide) (by decide) (by decide) (by decide) (by decide)
  exact ⟨h.1, h.2.trans (by decide)⟩

/-! ## Snapshot (PhysRestore.Snapshot), MarkFailed and close

`Snapshot` sequences effectful steps (init, prepareBackup, setTmpConf,
toState, flush, copyFiles, prepareData, recoverStandalone, resetRS,
toState(done), dumpMeta); each step's outcome is provided by a `SnapEnv`
environment and the function mirrors the source's control flow, its
`progress` bit-set, and the deferred `MarkFailed`/`close` pair.  The
write-stat step only logs a warning and the 120-second heartbeat
refresher task is concurrency, so neither is modelled. -/

/-- SnapEnv provides the outcome of each effectful step of `Snapshot`
in program order (`none` / `.ok` is success; toState successes carry the
observed status). -/
structure SnapEnv where
  initErr : Option GErr
  prepareRes : Option GErr
  tmpConfErr : Option GErr
  tsStarting : Except GErr Status
  tsRunning : Except GErr Status
  flushErr : Option GErr
  copyErr : Option GErr
  prepareDataErr : Option GErr
  recoverErr : Option GErr
  resetRSErr : Option GErr
  tsDone : Except GErr Status
  dumpMetaErr : Option GErr

/-- SnapOut is the observable outcome of one `Snapshot` run: returned
error, the two `progress` bits (`restoreStared`, `restoreDone`), whether
`MarkFailed` ran (with its error and `markCluster` argument), the
arguments `close` received, and the event trace. -/
structure SnapOut where
  ret : Option GErr
  started : Bool
  done : Bool
  markFailed : Option (GErr × Bool)
  closeNoerr : Bool
  closeCleanup : Bool
  events : List Event

/-- markFailedEvents mirrors the storage writes of
`PhysRestore.MarkFailed`: the node error object always; additionally the
replica-set error object when primary and the cluster error object when
cluster leader, both gated on `markCluster`.  (The restore-meta mutation
of MarkFailed is in-memory only.) -/
def markFailedEvents (cfg : RConf) (markCluster : Bool) : List Event :=
  [Event.save (cfg.syncPathNode ++ "." ++ statusStr Status.error) SB.errB]
  ++ (if cfg.isPrimary && markCluster then
        [Event.save (cfg.syncPathRS ++ "." ++ statusStr Status.error) SB.errB]
      else [])
  ++ (if cfg.isClusterLeader && markCluster then
        [Event.save (cfg.syncPathCluster ++ "." ++ statusStr Status.error) SB.errB]
      else [])

/-- hbEvents mirrors the initial heartbeat write performed by `init` via
`hb`: fresh timestamps on the node, replica-set and cluster `.hb`
objects. -/
def hbEvents (cfg : RConf) : List Event :=
  [Event.save (cfg.syncPathNode ++ "." ++ syncHbSuffix) SB.ok,
   Event.save (cfg.syncPathRS ++ "." ++ syncHbSuffix) SB.ok,
   Event.save (cfg.syncPathCluster ++ "." ++ syncHbSuffix) SB.ok]

/-- snapFinish mirrors the deferred tail of `Snapshot`: when the run
errored, the local restore had not completed, and the error is not
`ErrNoDataForShard`, `MarkFailed` runs with `markCluster = !restoreStared`;
`close` receives `noerr = (err == nil)` and
`cleanup = restoreStared && !restoreDone`. -/
def snapFinish (cfg : RConf) (ret : Option GErr) (started donep : Bool)
    (evs : List Event) : SnapOut :=
  let mf : Option (GErr × Bool) :=
    match ret with
    | some e => if !donep && !e.isNoData then some (e, !started) else none
    | none => none
  { ret := ret
    started := started
    done := donep
    markFailed := mf
    closeNoerr := ret.isNone
    closeCleanup := started && !donep
    events := evs ++ (match mf with
      | some (_, mc) => markFailedEvents cfg mc
      | none => []) }

/-- Snapshot mirrors `PhysRestore.Snapshot`: the step sequence with its
early returns and wrap messages, the `progress` bits set after `flush`
(point of no return) and after `resetRS` (local restore complete), and
the deferred `MarkFailed`/`close`.  `flush` wipes the data directory as
its last action, recorded as `wipeDbpath` exactly on flush success. -/
def Snapshot (cfg : RConf) (env : SnapEnv) : SnapOut :=
  match env.initErr with
  | some e => snapFinish cfg (some (GErr.wrap "init" e)) false false []
  | none =>
  let evs0 := hbEvents cfg
  match env.prepareRes with
  | some e => snapFinish cfg (some e) false false evs0
  | none =>
  match env.tmpConfErr with
  | some e => snapFinish cfg (some (GErr.wrap "set tmp config" e)) false false evs0
  | none =>
  let evs1 := evs0 ++ [Event.toStateCall Status.starting]
  match env.tsStarting with
  | .error e => snapFinish cfg (some (GErr.wrap "move to running state" e)) false false evs1
  | .ok _ =>
  let evs2 := evs1 ++ [Event.toStateCall Status.running]
  match env.tsRunning with
  | .error e => snapFinish cfg (some (GErr.wrap "moving to state running" e)) false false evs2
  | .ok _ =>
  match env.flushErr with
  | some e => snapFinish cfg (some e) false false evs2
  | none =>
  let evs3 := evs2 ++ [Event.wipeDbpath]
  match env.copyErr with
  | some e => snapFinish cfg (some (GErr.wrap "copy files" e)) true false evs3
  | none =>
  match env.prepareDataErr with
  | some e => snapFinish cfg (some (GErr.wrap "prepare data" e)) true false evs3
  | none =>
  match env.recoverErr with
  | some e => snapFinish cfg (some (GErr.wrap "recover oplog as standalone" e)) true false evs3
  | none =>
  match env.resetRSErr with
  | some e => snapFinish cfg (some (GErr.wrap "clean-up, rs_reset" e)) true false evs3
  | none =>
  let evs4 := evs3 ++ [Event.toStateCall Status.done]
  match env.tsDone with
  | .error e => snapFinish cfg (some (GErr.wrap "moving to state done" e)) true true evs4
  | .ok _ =>
  match env.dumpMetaErr with
  | some e =>
      snapFinish cfg (some (GErr.wrap "writing restore meta to storage" e)) true true evs4
  | none => snapFinish cfg none true true evs4

theorem toStateDeferEvents_done (cfg : RConf) :
    toStateDeferEvents cfg Status.done = [] := by
  simp [toStateDeferEvents]

theorem syncStage_events_cases (stg : Stg) (status : Status) (startTS now : Int) (fuel : Nat)
    (cluster : Bool) (wrapMsg savePath : String) (cfg : RConf)
    (h : Heap) (srcId : Nat) (evs : List Event) :
    ∃ tail,
      (syncStage stg status startTS now fuel cluster wrapMsg savePath cfg h srcId evs).2.1
        = (evs ++ [Event.wait status (((copyMap h srcId).1).get (copyMap h srcId).2) cluster])
            ++ tail ∧
      (tail = [] ∨ tail = toStateDeferEvents cfg status ∨ ∃ p, tail = [Event.save p SB.ok]) := by
  simp only [syncStage, waitFilesH]
  cases hw : (waitFiles stg status startTS now cluster fuel
      (((copyMap h srcId).1).get (copyMap h srcId).2)).1 with
  | none => exact ⟨[], by simp, Or.inl rfl⟩
  | some r =>
      rcases r with ⟨st, oe⟩
      cases oe with
      | none =>
          exact ⟨[Event.save (savePath ++ "." ++ statusStr st) SB.ok], by simp,
            Or.inr (Or.inr ⟨_, rfl⟩)⟩
      | some e =>
          exact ⟨toStateDeferEvents cfg status, by simp, Or.inr (Or.inl rfl)⟩

theorem toState_done_no_errB (stg : Stg) (fuel : Nat) (startTS now : Int) (cfg : RConf)
    (h : Heap) (p : String) :
    Event.save p SB.errB ∉ (toState stg fuel startTS now cfg h Status.done).2.2 := by
  have hcond : ∀ b : Bool, (b || (Status.done == Status.done)) = true := by
    intro b; simp
  have htail : ∀ tail, (tail = [] ∨ tail = toStateDeferEvents cfg Status.done ∨
      ∃ q, tail = [Event.save q SB.ok]) → Event.save p SB.errB ∉ tail := by
    rintro tail (rfl | rfl | ⟨q, rfl⟩)
    · simp
    · rw [toStateDeferEvents_done]; simp
    · simp
  simp only [toState]
  rw [if_pos (hcond cfg.isPrimary)]
  obtain ⟨t1, he1, ht1⟩ := syncStage_events_cases stg Status.done startTS now fuel false
    "wait for nodes in rs" cfg.syncPathRS cfg h cfg.peersId
    [Event.save (cfg.syncPathNode ++ "." ++ statusStr Status.done) SB.ok]
  rcases hs1 : syncStage stg Status.done startTS now fuel false
      "wait for nodes in rs" cfg.syncPathRS cfg h cfg.peersId
      [Event.save (cfg.syncPathNode ++ "." ++ statusStr Status.done) SB.ok]
    with ⟨h1, evs1, r1⟩
  rw [hs1] at he1
  simp only at he1
  have hevs1 : Event.save p SB.errB ∉ evs1 := by
    rw [he1]
    simp only [List.mem_append, List.mem_singleton]
    rintro ((hmem | hmem) | hmem)
    · simp at hmem
    · simp at hmem
    · exact htail t1 ht1 hmem
  cases r1 with
  | some r => simpa using hevs1
  | none =>
      simp only []
      rw [if_pos (hcond cfg.isClusterLeader)]
      obtain ⟨t2, he2, ht2⟩ := syncStage_events_cases stg Status.done startTS now fuel true
        "wait for shards" cfg.syncPathCluster cfg h1 cfg.shardsId evs1
      rcases hs2 : syncStage stg Status.done startTS now fuel true
          "wait for shards" cfg.syncPathCluster cfg h1 cfg.shardsId evs1
        with ⟨h2, evs2, r2⟩
      rw [hs2] at he2
      simp only at he2
      have hevs2 : Event.save p SB.errB ∉ evs2 := by
        rw [he2]
        simp only [List.mem_append, List.mem_singleton]
        rintro ((hmem | hmem) | hmem)
        · exact hevs1 hmem
        · simp at hmem
        · exact htail t2 ht2 hmem
      cases r2 with
      | some r => simpa using hevs2
      | none =>
          simp only [waitFilesH]
          cases hw : (waitFiles stg Status.done startTS now true fuel
              ((h2.alloc [cfg.syncPathCluster]).1.get (h2.alloc [cfg.syncPathCluster]).2)).1 with
          | none =>
              simp only [List.mem_append, List.mem_singleton]
              rintro (hmem | hmem)
              · exact hevs2 hmem
              · simp at hmem
          | some r =>
              rcases r with ⟨st, oe⟩
              cases oe with
              | none =>
                  simp only [List.mem_append, List.mem_singleton]
                  rintro (hmem | hmem)
                  · exact hevs2 hmem
                  · simp at hmem
              | some e =>
                  rw [toStateDeferEvents_done]
                  simp only [List.append_nil, List.mem_append, List.mem_singleton]
                  rintro (hmem | hmem)
                  · exact hevs2 hmem
                  · simp at hmem

/-- C2: in every run of Snapshot in which the local restore has completed
(resetRS succeeded, so progress includes restoreDone), no later failure —
in toState(done) or in writing the restore meta — causes MarkFailed to
run: the node's error status object is never written (neither by the
Snapshot path nor inside toState(done), whose deferred error publication
is disabled for status done) and the data directory is not cleaned up. -/
theorem C2_no_demotion_after_local_success (cfg : RConf) (env : SnapEnv)
    (h1 : env.initErr = none) (h2 : env.prepareRes = none) (h3 : env.tmpConfErr = none)
    (h4 : ∃ s, env.tsStarting = Except.ok s) (h5 : ∃ s, env.tsRunning = Except.ok s)
    (h6 : env.flushErr = none) (h7 : env.copyErr = none) (h8 : env.prepareDataErr = none)
    (h9 : env.recoverErr = none) (h10 : env.resetRSErr = none) :
    (Snapshot cfg env).done = true ∧
    (Snapshot cfg env).markFailed = none ∧
    (Snapshot cfg env).closeCleanup = false ∧
    Event.save (cfg.syncPathNode ++ "." ++ statusStr Status.error) SB.errB
      ∉ (Snapshot cfg env).events ∧
    (∀ (stg : Stg) (fuel : Nat) (startTS now : Int) (h : Heap),
      Event.save (cfg.syncPathNode ++ "." ++ statusStr Status.error) SB.errB
        ∉ (toState stg fuel startTS now cfg h Status.done).2.2) := by
  obtain ⟨s1, hs1⟩ := h4
  obtain ⟨s2, hs2⟩ := h5
  have hmain : (Snapshot cfg env).done = true ∧
      (Snapshot cfg env).markFailed = none ∧
      (Snapshot cfg env).closeCleanup = false ∧
      Event.save (cfg.syncPathNode ++ "." ++ statusStr Status.error) SB.errB
        ∉ (Snapshot cfg env).events := by
    simp only [Snapshot, h1, h2, h3, hs1, hs2, h6, h7, h8, h9, h10]
    cases htd : env.tsDone with
    | error e =>
        refine ⟨rfl, ?_, by simp [snapFinish], ?_⟩
        · simp [snapFinish]
        · simp [snapFinish, hbEvents]
    | ok s =>
        cases hdm : env.dumpMetaErr with
        | some e =>
            refine ⟨rfl, ?_, by simp [snapFinish], ?_⟩
            · simp [snapFinish]
            · simp [snapFinish, hbEvents]
        | none =>
            refine ⟨rfl, ?_, by simp [snapFinish], ?_⟩
            · simp [snapFinish]
            · simp [snapFinish, hbEvents]
  exact ⟨hmain.1, hmain.2.1, hmain.2.2.1, hmain.2.2.2,
    fun stg fuel startTS now h => toState_done_no_errB stg fuel startTS now cfg h _⟩

/-- Witness for C2: with every step up to resetRS succeeding and both
toState(done) and the meta dump failing, Snapshot still reports
restoreDone, runs no MarkFailed, and writes no node error object. -/
theorem C2_no_demotion_after_local_success_witness :
    (Snapshot ⟨true, true, "n", "r", "c", 0, 1⟩
      ⟨none, none, none, Except.ok Status.starting, Except.ok Status.running,
       none, none, none, none, none, Except.error (GErr.base "net down"),
       some (GErr.base "meta fail")⟩).done = true ∧
    (Snapshot ⟨true, true, "n", "r", "c", 0, 1⟩
      ⟨none, none, none, Except.ok Status.starting, Except.ok Status.running,
       none, none, none, none, none, Except.error (GErr.base "net down"),
       some (GErr.base "meta fail")⟩).markFailed = none := by
  have h := C2_no_demotion_after_local_success ⟨true, true, "n", "r", "c", 0, 1⟩
    ⟨none, none, none, Except.ok Status.starting, Except.ok Status.running,
     none, none, none, none, none, Except.error (GErr.base "net down"),
     some (GErr.base "meta fail")⟩
    rfl rfl rfl ⟨Status.starting, rfl⟩ ⟨Status.running, rfl⟩ rfl rfl rfl rfl rfl
  exact ⟨h.1, h.2.1⟩

theorem wipe_not_mem_markFailedEvents (cfg : RConf) (mc : Bool) :
    Event.wipeDbpath ∉ markFailedEvents cfg mc := by
  simp only [markFailedEvents, List.mem_append]
  rintro ((hmem | hmem) | hmem)
  · simp at hmem
  · by_cases hb : cfg.isPrimary && mc <;> simp [hb] at hmem
  · by_cases hb : cfg.isClusterLeader && mc <;> simp [hb] at hmem

theorem snapFinish_amended (cfg : RConf) (ret : Option GErr) (started donep : Bool)
    (evs : List Event)
    (hwipe : Event.wipeDbpath ∈ evs → started = true)
    (hsd : donep = true → started = true)
    (hnoerrB : ∀ p, Event.save p SB.errB ∉ evs) :
    (∀ e, (snapFinish cfg ret started donep evs).ret = some e →
      (snapFinish cfg ret started donep evs).started = false → e.isNoData = false →
      (snapFinish cfg ret started donep evs).markFailed = some (e, true) ∧
      (snapFinish cfg ret started donep evs).closeCleanup = false ∧
      Event.wipeDbpath ∉ (snapFinish cfg ret started donep evs).events ∧
      Event.save (cfg.syncPathNode ++ "." ++ statusStr Status.error) SB.errB
        ∈ (snapFinish cfg ret started donep evs).events) ∧
    (∀ e, (snapFinish cfg ret started donep evs).ret = some e →
      (snapFinish cfg ret started donep evs).started = true →
      (snapFinish cfg ret started donep evs).done = false →
      (snapFinish cfg ret started donep evs).closeCleanup = true) ∧
    (∀ e, (snapFinish cfg ret started donep evs).ret = some e → e.isNoData = true →
      (snapFinish cfg ret started donep evs).markFailed = none ∧
      Event.save (cfg.syncPathNode ++ "." ++ statusStr Status.error) SB.errB
        ∉ (snapFinish cfg ret started donep evs).events) := by
  refine ⟨?_, ?_, ?_⟩
  · intro e hret hstart hnod
    simp only [snapFinish] at hret hstart
    subst hret
    subst hstart
    have hdone : donep = false := by
      cases hd : donep
      · rfl
      · exact absurd (hsd hd) (by simp)
    subst hdone
    refine ⟨by simp [snapFinish, hnod], by simp [snapFinish], ?_, ?_⟩
    · simp only [snapFinish, hnod, Bool.not_false, Bool.and_self, if_pos, List.mem_append]
      rintro (hmem | hmem)
      · exact absurd (hwipe hmem) (by simp)
      · exact wipe_not_mem_markFailedEvents cfg _ (by simpa [hnod] using hmem)
    · simp only [snapFinish, hnod]
      refine List.mem_append.mpr (Or.inr ?_)
      simp [markFailedEvents]
  · intro e hret hstart hdone
    simp only [snapFinish] at hret hstart hdone ⊢
    rw [hstart, hdone]
    rfl
  · intro e hret hnod
    simp only [snapFinish] at hret ⊢
    subst hret
    refine ⟨by simp [hnod], ?_⟩
    simp only [hnod, Bool.not_true, Bool.and_false, List.mem_append]
    rintro (hmem | hmem)
    · exact hnoerrB _ hmem
    · simp at hmem

/-- snapshot_failure_policy: the defer-driven failure handling of
`Snapshot` over an arbitrary environment.  A failure before flush whose
error does not satisfy `errors.Is(err, ErrNoDataForShard)` leaves the
data directory intact (no wipe happened, close cleanup stays off) and
MarkFailed publishes the error status object on the node's rendezvous
object; an error satisfying the sentinel check skips MarkFailed (this
guard of the defer is exercised at such an error value here even though,
as `prepareBackup_ret_not_noData` shows, the running program never
produces one); a failure after flush but before the local restore
completes turns close's cleanup on. -/
theorem snapshot_failure_policy (cfg : RConf) (env : SnapEnv) :
    (∀ e, (Snapshot cfg env).ret = some e → (Snapshot cfg env).started = false →
      e.isNoData = false →
      (Snapshot cfg env).markFailed = some (e, true) ∧
      (Snapshot cfg env).closeCleanup = false ∧
      Event.wipeDbpath ∉ (Snapshot cfg env).events ∧
      Event.save (cfg.syncPathNode ++ "." ++ statusStr Status.error) SB.errB
        ∈ (Snapshot cfg env).events) ∧
    (∀ e, (Snapshot cfg env).ret = some e → (Snapshot cfg env).started = true →
      (Snapshot cfg env).done = false →
      (Snapshot cfg env).closeCleanup = true) ∧
    (∀ e, (Snapshot cfg env).ret = some e → e.isNoData = true →
      (Snapshot cfg env).markFailed = none ∧
      Event.save (cfg.syncPathNode ++ "." ++ statusStr Status.error) SB.errB
        ∉ (Snapshot cfg env).events) := by
  have hnoerrB0 : ∀ p, Event.save p SB.errB ∉ ([] : List Event) := by simp
  have hnoerrBhb : ∀ p, Event.save p SB.errB ∉ hbEvents cfg := by
    intro p
    simp [hbEvents]
  have hnoerrB1 : ∀ p, Event.save p SB.errB
      ∉ hbEvents cfg ++ [Event.toStateCall Status.starting] := by
    intro p
    simp only [List.mem_append, List.mem_singleton]
    rintro (hmem | hmem)
    · exact hnoerrBhb p hmem
    · simp at hmem
  have hnoerrB2 : ∀ p, Event.save p SB.errB
      ∉ hbEvents cfg ++ [Event.toStateCall Status.starting]
        ++ [Event.toStateCall Status.running] := by
    intro p
    simp only [List.mem_append, List.mem_singleton]
    rintro ((hmem | hmem) | hmem)
    · exact hnoerrBhb p hmem
    · simp at hmem
    · simp at hmem
  have hnoerrB3 : ∀ p, Event.save p SB.errB
      ∉ hbEvents cfg ++ [Event.toStateCall Status.starting]
        ++ [Event.toStateCall Status.running] ++ [Event.wipeDbpath] := by
    intro p
    simp only [List.mem_append, List.mem_singleton]
    rintro (((hmem | hmem) | hmem) | hmem)
    · exact hnoerrBhb p hmem
    · simp at hmem
    · simp at hmem
    · simp at hmem
  have hnoerrB4 : ∀ p, Event.save p SB.errB
      ∉ hbEvents cfg ++ [Event.toStateCall Status.starting]
        ++ [Event.toStateCall Status.running] ++ [Event.wipeDbpath]
        ++ [Event.toStateCall Status.done] := by
    intro p
    simp only [List.mem_append, List.mem_singleton]
    rintro ((((hmem | hmem) | hmem) | hmem) | hmem)
    · exact hnoerrBhb p hmem
    · simp at hmem
    · simp at hmem
    · simp at hmem
    · simp at hmem
  simp only [Snapshot]
  cases env.initErr with
  | some e1 => exact snapFinish_amended cfg _ _ _ _ (by simp) (by simp) hnoerrB0
  | none =>
  cases env.prepareRes with
  | some e1 => exact snapFinish_amended cfg _ _ _ _ (by simp [hbEvents]) (by simp) hnoerrBhb
  | none =>
  cases env.tmpConfErr with
  | some e1 => exact snapFinish_amended cfg _ _ _ _ (by simp [hbEvents]) (by simp) hnoerrBhb
  | none =>
  cases env.tsStarting with
  | error e1 =>
      refine snapFinish_amended cfg _ _ _ _ ?_ (by simp) hnoerrB1
      intro hmem
      exact absurd hmem (by
        simp only [List.mem_append, List.mem_singleton]
        rintro (hmem | hmem)
        · simp [hbEvents] at hmem
        · simp at hmem)
  | ok s1 =>
  cases env.tsRunning with
  | error e1 =>
      refine snapFinish_amended cfg _ _ _ _ ?_ (by simp) hnoerrB2
      intro hmem
      exact absurd hmem (by
        simp only [List.mem_append, List.mem_singleton]
        rintro ((hmem | hmem) | hmem)
        · simp [hbEvents] at hmem
        · simp at hmem
        · simp at hmem)
  | ok s2 =>
  cases env.flushErr with
  | some e1 =>
      refine snapFinish_amended cfg _ _ _ _ ?_ (by simp) hnoerrB2
      intro hmem
      exact absurd hmem (by
        simp only [List.mem_append, List.mem_singleton]
        rintro ((hmem | hmem) | hmem)
        · simp [hbEvents] at hmem
        · simp at hmem
        · simp at hmem)
  | none =>
  cases env.copyErr with
  | some e1 => exact snapFinish_amended cfg _ _ _ _ (fun _ => rfl) (fun _ => rfl) hnoerrB3
  | none =>
  cases env.prepareDataErr with
  | some e1 => exact snapFinish_amended cfg _ _ _ _ (fun _ => rfl) (fun _ => rfl) hnoerrB3
  | none =>
  cases env.recoverErr with
  | some e1 => exact snapFinish_amended cfg _ _ _ _ (fun _ => rfl) (fun _ => rfl) hnoerrB3
  | none =>
  cases env.resetRSErr with
  | some e1 => exact snapFinish_amended cfg _ _ _ _ (fun _ => rfl) (fun _ => rfl) hnoerrB3
  | none =>
  cases env.tsDone with
  | error e1 => exact snapFinish_amended cfg _ _ _ _ (fun _ => rfl) (fun _ => rfl) hnoerrB4
  | ok s3 =>
  cases env.dumpMetaErr with
  | some e1 => exact snapFinish_amended cfg _ _ _ _ (fun _ => rfl) (fun _ => rfl) hnoerrB4
  | none => exact snapFinish_amended cfg _ _ _ _ (fun _ => rfl) (fun _ => rfl) hnoerrB4

/-! ## Artifact planner (PhysRestore.setBcpFiles)

The Go `targetFiles map[string]bool` is modelled as an association list
preserving first-insertion order (Go map iteration order is
unspecified; the model fixes insertion order, which only determines
which representative of each parent directory the synthetic frame
names). -/

/-- setKey mirrors `m[k] = v`: replace in place or append. -/
def setKey : List (String × Bool) → String → Bool → List (String × Bool)
  | [], k, v => [(k, v)]
  | (k', v') :: rest, k, v =>
      if k' = k then (k, v) :: rest else (k', v') :: setKey rest k v

/-- hasKey mirrors `_, ok := m[k]`. -/
def hasKey (m : List (String × Bool)) (k : String) : Bool :=
  m.any (fun kv => kv.1 = k)

/-- FilesFrame mirrors the unexported `files` struct of the restore
package: backup name, codec, file descriptors, and the PBM-1058 dbpath
prefix to cut from destinations. -/
structure FilesFrame where
  BcpName : String
  Cmpr : String
  Data : List pbm.File
  dbpath : String
  deriving DecidableEq, Repr

/-- bcpDir mirrors `const bcpDir = "__dir__"`. -/
def bcpDir : String := "__dir__"

/-- getRS mirrors `getRS`: the first replica-set section carrying the
name, if any. -/
def getRS (bcp : pbm.BackupMeta) (rs : String) : Option pbm.BackupReplset :=
  bcp.Replsets.find? (fun r => r.Name = rs)

/-- findDBpath mirrors `findDBpath` (PBM-1058 detection): a name with a
leading slash marks the issue, and when its directory ends in
"/journal/" the dbpath prefix is that directory's parent (with a
trailing slash appended when missing). -/
def findDBpath (fname : String) : Bool × String :=
  if ¬ (['/'].isPrefixOf fname.data) then (false, "")
  else
    let d := pathSplitDir fname
    let pre1 := if ("/journal/".data).isSuffixOf d.data then
        pathDir (String.mk d.data.dropLast)
      else ""
    let pre2 := if pre1 ≠ "" ∧ ¬ (['/'].isSuffixOf pre1.data) then pre1 ++ "/" else pre1
    (true, pre2)

/-- buildFrame mirrors the per-backup inner loop of `setBcpFiles`: over
`rs.Files ++ rs.Journal`, keep the files whose name is a key of
`targetFiles` and whose offset and length are non-negative, mark them
emitted, and record the first PBM-1058 dbpath while none is set. -/
def buildFrame (bcp : pbm.BackupMeta) (rs : pbm.BackupReplset)
    (tf : List (String × Bool)) : FilesFrame × List (String × Bool) :=
  (rs.Files ++ rs.Journal).foldl
    (fun acc f =>
      if hasKey acc.2 f.Name ∧ f.Off ≥ 0 ∧ f.Len ≥ 0 then
        ({ acc.1 with
            Data := acc.1.Data ++ [f]
            dbpath := if acc.1.dbpath = "" then (findDBpath f.Name).2 else acc.1.dbpath },
         setKey acc.2 f.Name true)
      else acc)
    ({ BcpName := bcp.Name, Cmpr := bcp.Compression, Data := [], dbpath := "" }, tf)

/-- ChainEnv provides the `GetBackupMeta` lookups used to walk the
incremental chain. -/
structure ChainEnv where
  getBackupMeta : String → Option pbm.BackupMeta

/-- BcpErr: failure modes of setBcpFiles.  `panicNilRS` models the nil
pointer dereference the Go code would hit when a *source* backup in the
chain lacks this replica set's section (only the target backup's
section is nil-checked before the loop). -/
inductive BcpErr
  | noDataRS (rs : String)
  | getSrc (name : String)
  | panicNilRS
  deriving DecidableEq, Repr

/-- chainLoop mirrors the backup-chain `for` loop of `setBcpFiles`,
fuelled by a bound on the chain length (`none` = the chain did not end
within fuel). -/
def chainLoop (env : ChainEnv) (setName : String) :
    Nat → pbm.BackupMeta → pbm.BackupReplset → List (String × Bool) → List FilesFrame →
    Option (Except BcpErr (List FilesFrame × List (String × Bool)))
  | 0, _, _, _, _ => none
  | Nat.succ n, bcp, rs, tf, acc =>
      let fr := buildFrame bcp rs tf
      let acc' := acc ++ [fr.1]
      if bcp.SrcBackup = "" then some (Except.ok (acc', fr.2))
      else
        match env.getBackupMeta bcp.SrcBackup with
        | none => some (Except.error (BcpErr.getSrc bcp.SrcBackup))
        | some bcp' =>
            match getRS bcp' setName with
            | none => some (Except.error BcpErr.panicNilRS)
            | some rs' => chainLoop env setName n bcp' rs' fr.2 acc'

/-- buildDirsGo mirrors the `for f, was := range targetFiles` loop that
collects directory records for never-emitted names, deduplicated by
parent directory and excluding parent ".". -/
def buildDirsGo : List (String × Bool) → List pbm.File → List String → List pbm.File
  | [], dirs, _ => dirs
  | kv :: rest, dirs, seen =>
      if kv.2 = false then
        let dir := pathDir kv.1
        if dir ≠ "." ∧ ¬ seen.contains dir then
          buildDirsGo rest (dirs ++ [⟨kv.1, -1, -1, -1, 0⟩]) (seen ++ [dir])
        else buildDirsGo rest dirs seen
      else buildDirsGo rest dirs seen

/-- buildDirs: the synthetic directory records of `setBcpFiles`. -/
def buildDirs (tf : List (String × Bool)) : List pbm.File :=
  buildDirsGo tf [] []

/-- setBcpFiles mirrors `PhysRestore.setBcpFiles`: the target backup's
section seeds the name set (all unmarked), the chain loop emits one
frame per backup, and the never-emitted names produce the trailing
directory-only frame when non-empty. -/
def setBcpFiles (env : ChainEnv) (fuel : Nat) (setName : String)
    (bcp0 : pbm.BackupMeta) : Option (Except BcpErr (List FilesFrame)) :=
  match getRS bcp0 setName with
  | none => some (Except.error (BcpErr.noDataRS setName))
  | some rs0 =>
      let tf0 := (rs0.Files ++ rs0.Journal).foldl (fun m f => setKey m f.Name false) []
      match chainLoop env setName fuel bcp0 rs0 tf0 [] with
      | none => none
      | some (Except.error e) => some (Except.error e)
      | some (Except.ok (frames, tf)) =>
          let dirs := buildDirs tf
          if dirs.length > 0 then
            some (Except.ok (frames ++
              [{ BcpName := bcpDir, Cmpr := "", Data := dirs, dbpath := "" }]))
          else some (Except.ok frames)

/-! Specification-side description of the plan (the claim's wording). -/

/-- targetKeys: the target section's file names, deduplicated keeping
first occurrences — the key list of `targetFiles`. -/
def targetKeys (rs0 : pbm.BackupReplset) : List String :=
  (rs0.Files ++ rs0.Journal).foldl
    (fun acc f => if acc.any (fun n => n = f.Name) then acc else acc ++ [f.Name]) []

/-- specFrameData: the files of one backup's replica-set section whose
name appears in the target section and whose Off and Len are
non-negative (the claim's frame contents). -/
def specFrameData (rs0 rs : pbm.BackupReplset) : List pbm.File :=
  (rs.Files ++ rs.Journal).filter
    (fun f => ((rs0.Files ++ rs0.Journal).any (fun g => g.Name = f.Name))
      && decide (f.Off ≥ 0) && decide (f.Len ≥ 0))

/-- specDbpath: the first non-empty PBM-1058 prefix among the frame's
files. -/
def specDbpath (data : List pbm.File) : String :=
  data.foldl (fun d f => if d = "" then (findDBpath f.Name).2 else d) ""

/-- specFrame: the frame the claim describes for one backup of the
chain. -/
def specFrame (rs0 : pbm.BackupReplset) (bcp : pbm.BackupMeta)
    (rs : pbm.BackupReplset) : FilesFrame :=
  { BcpName := bcp.Name, Cmpr := bcp.Compression,
    Data := specFrameData rs0 rs, dbpath := specDbpath (specFrameData rs0 rs) }

/-- emittedName: the name was emitted in some frame of the chain. -/
def emittedName (rs0 : pbm.BackupReplset)
    (chain : List (pbm.BackupMeta × pbm.BackupReplset)) (n : String) : Bool :=
  chain.any (fun p => (specFrameData rs0 p.2).any (fun f => f.Name = n))

/-- dirsSpec: one entry per never-emitted target name, deduplicated by
parent directory, excluding parent "." (the claim's directory frame). -/
def dirsSpec : List String → List String → List pbm.File
  | [], _ => []
  | n :: rest, seen =>
      let dir := pathDir n
      if dir ≠ "." ∧ ¬ seen.contains dir then
        ⟨n, -1, -1, -1, 0⟩ :: dirsSpec rest (seen ++ [dir])
      else dirsSpec rest seen

/-- ChainOk describes a well-formed incremental chain from the target
back to the first backup with an empty source-backup link: every member
carries a section for this replica set and consecutive members are
linked through `GetBackupMeta`. -/
inductive ChainOk (env : ChainEnv) (setName : String) :
    pbm.BackupMeta → List (pbm.BackupMeta × pbm.BackupReplset) → Prop
  | last (bcp : pbm.BackupMeta) (rs : pbm.BackupReplset) :
      getRS bcp setName = some rs → bcp.SrcBackup = "" →
      ChainOk env setName bcp [(bcp, rs)]
  | step (bcp bcp' : pbm.BackupMeta) (rs : pbm.BackupReplset)
      (rest : List (pbm.BackupMeta × pbm.BackupReplset)) :
      getRS bcp setName = some rs → bcp.SrcBackup ≠ "" →
      env.getBackupMeta bcp.SrcBackup = some bcp' →
      ChainOk env setName bcp' rest →
      ChainOk env setName bcp ((bcp, rs) :: rest)

theorem setKey_map_false :
    ∀ (ks : List String) (k : String),
      setKey (ks.map (fun n => (n, false))) k false =
        (if ks.any (fun n => n = k) then ks else ks ++ [k]).map (fun n => (n, false)) := by
  intro ks
  induction ks with
  | nil => intro k; simp [setKey]
  | cons a ks ih =>
      intro k
      by_cases hak : a = k
      · subst hak
        simp [setKey]
      · simp only [List.map_cons, setKey, if_neg hak, List.any_cons]
        rw [ih k]
        by_cases hk : ks.any (fun n => n = k) = true
        · simp [hk, hak]
        · simp [hk, hak]

theorem tf0_eq_targetKeys_map :
    ∀ (fs : List pbm.File) (ks : List String),
      fs.foldl (fun m f => setKey m f.Name false) (ks.map (fun n => (n, false))) =
        (fs.foldl (fun acc f => if acc.any (fun n => n = f.Name) then acc
          else acc ++ [f.Name]) ks).map (fun n => (n, false)) := by
  intro fs
  induction fs with
  | nil => intro ks; rfl
  | cons f fs ih =>
      intro ks
      simp only [List.foldl_cons]
      rw [setKey_map_false ks f.Name]
      exact ih _

theorem targetKeys_fold_nodup :
    ∀ (fs : List pbm.File) (ks : List String), ks.Nodup →
      (fs.foldl (fun acc f => if acc.any (fun n => n = f.Name) then acc
        else acc ++ [f.Name]) ks).Nodup := by
  intro fs
  induction fs with
  | nil => intro ks h; exact h
  | cons f fs ih =>
      intro ks h
      simp only [List.foldl_cons]
      by_cases hc : ks.any (fun n => n = f.Name) = true
      · rw [if_pos hc]; exact ih ks h
      · rw [if_neg hc]
        refine ih _ ?_
        rw [List.nodup_append]
        refine ⟨h, List.nodup_singleton _, ?_⟩
        intro x hx
        simp only [List.mem_singleton]
        intro heq
        exact hc (List.any_eq_true.mpr ⟨x, hx, by simp [heq]⟩)

theorem targetKeys_fold_any (x : String) :
    ∀ (fs : List pbm.File) (ks : List String),
      ((fs.foldl (fun acc f => if acc.any (fun n => n = f.Name) then acc
        else acc ++ [f.Name]) ks).any (fun n => n = x)) =
      (ks.any (fun n => n = x) || fs.any (fun f => f.Name = x)) := by
  intro fs
  induction fs with
  | nil => intro ks; simp
  | cons f fs ih =>
      intro ks
      simp only [List.foldl_cons, List.any_cons]
      by_cases hc : ks.any (fun n => n = f.Name) = true
      · rw [if_pos hc, ih ks]
        by_cases hx : f.Name = x
        · subst hx
          simp [hc]
        · simp [hx]
      · rw [if_neg hc, ih (ks ++ [f.Name])]
        simp only [List.any_append, List.any_cons, List.any_nil]
        by_cases hx : f.Name = x
        · subst hx; simp
        · simp [hx]

theorem hasKey_map (ks : List String) (em : String → Bool) (x : String) :
    hasKey (ks.map (fun n => (n, em n))) x = ks.any (fun n => n = x) := by
  induction ks with
  | nil => rfl
  | cons a ks ih =>
      simp only [hasKey, List.map_cons, List.any_cons] at ih ⊢
      rw [ih]

theorem setKey_map_true (k : String) :
    ∀ (ks : List String) (em : String → Bool), ks.Nodup →
      ks.any (fun n => n = k) = true →
      setKey (ks.map (fun n => (n, em n))) k true =
        ks.map (fun n => (n, if n = k then true else em n)) := by
  intro ks
  induction ks with
  | nil => intro em _ hk; simp at hk
  | cons a ks ih =>
      intro em hnd hk
      by_cases hak : a = k
      · subst hak
        simp only [List.map_cons, setKey, if_pos rfl, if_true]
        congr 1
        refine List.map_congr_left ?_
        intro n hn
        have hna : n ≠ a := fun heq => (List.nodup_cons.mp hnd).1 (heq ▸ hn)
        rw [if_neg hna]
      · simp only [List.map_cons, setKey, if_neg hak, if_neg hak]
        have hk' : ks.any (fun n => n = k) = true := by
          simp only [List.any_cons] at hk
          rcases Bool.or_eq_true_iff.mp hk with h | h
          · exact absurd (of_decide_eq_true h) hak
          · exact h
        rw [ih em (List.nodup_cons.mp hnd).2 hk']

theorem buildFrame_fold (rs0 : pbm.BackupReplset) (ks : List String) (hnd : ks.Nodup)
    (hks : ∀ x, ks.any (fun n => n = x)
      = (rs0.Files ++ rs0.Journal).any (fun g => g.Name = x)) :
    ∀ (fs : List pbm.File) (fr : FilesFrame) (em : String → Bool),
      fs.foldl
        (fun acc f =>
          if hasKey acc.2 f.Name ∧ f.Off ≥ 0 ∧ f.Len ≥ 0 then
            ({ acc.1 with
                Data := acc.1.Data ++ [f]
                dbpath := if acc.1.dbpath = "" then (findDBpath f.Name).2 else acc.1.dbpath },
             setKey acc.2 f.Name true)
          else acc)
        (fr, ks.map (fun n => (n, em n))) =
      ({ fr with
          Data := fr.Data ++ fs.filter (fun f =>
            ((rs0.Files ++ rs0.Journal).any (fun g => g.Name = f.Name))
              && decide (f.Off ≥ 0) && decide (f.Len ≥ 0)),
          dbpath := (fs.filter (fun f =>
            ((rs0.Files ++ rs0.Journal).any (fun g => g.Name = f.Name))
              && decide (f.Off ≥ 0) && decide (f.Len ≥ 0))).foldl
            (fun d f => if d = "" then (findDBpath f.Name).2 else d) fr.dbpath },
       ks.map (fun n => (n, em n || (fs.filter (fun f =>
          ((rs0.Files ++ rs0.Journal).any (fun g => g.Name = f.Name))
            && decide (f.Off ≥ 0) && decide (f.Len ≥ 0))).any (fun f => f.Name = n)))) := by
  intro fs
  induction fs with
  | nil =>
      intro fr em
      simp
  | cons f fs ih =>
      intro fr em
      simp only [List.foldl_cons, List.filter_cons]
      by_cases hC : (hasKey (ks.map (fun n => (n, em n))) f.Name = true)
          ∧ f.Off ≥ 0 ∧ f.Len ≥ 0
      · have hA : ((rs0.Files ++ rs0.Journal).any (fun g => g.Name = f.Name)) = true := by
          rw [← hks f.Name, ← hasKey_map ks em f.Name]
          exact hC.1
        have hB : ((rs0.Files ++ rs0.Journal).any (fun g => g.Name = f.Name)
            && decide (f.Off ≥ 0) && decide (f.Len ≥ 0)) = true := by
          simp [hA, hC.2.1, hC.2.2]
        rw [if_pos hC, if_pos hB]
        have hkany : ks.any (fun n => n = f.Name) = true := by
          rw [← hasKey_map ks em f.Name]; exact hC.1
        rw [setKey_map_true f.Name ks em hnd hkany]
        rw [ih _ (fun n => if n = f.Name then true else em n)]
        simp only [Prod.mk.injEq, FilesFrame.mk.injEq]
        refine ⟨⟨trivial, trivial, ?_, ?_⟩, ?_⟩
        · simp
        · rfl
        · refine List.map_congr_left ?_
          intro n hn
          by_cases hfn : n = f.Name
          · subst hfn
            simp
          · have : ¬ (f.Name = n) := fun h => hfn h.symm
            simp [hfn, this]
      · have hB : ((rs0.Files ++ rs0.Journal).any (fun g => g.Name = f.Name)
            && decide (f.Off ≥ 0) && decide (f.Len ≥ 0)) = false := by
          cases hBB : ((rs0.Files ++ rs0.Journal).any (fun g => g.Name = f.Name)
            && decide (f.Off ≥ 0) && decide (f.Len ≥ 0)) with
          | false => rfl
          | true =>
              exfalso
              simp only [Bool.and_eq_true, decide_eq_true_eq] at hBB
              refine hC ⟨?_, hBB.1.2, hBB.2⟩
              rw [hasKey_map ks em f.Name, hks f.Name]
              exact hBB.1.1
        rw [if_neg hC]
        rw [if_neg (show ¬ (((rs0.Files ++ rs0.Journal).any (fun g => g.Name = f.Name)
          && decide (f.Off ≥ 0) && decide (f.Len ≥ 0)) = true) from by
            rw [hB]; exact fun h => Bool.noConfusion h)]
        exact ih fr em

theorem buildFrame_spec (rs0 : pbm.BackupReplset) (ks : List String) (hnd : ks.Nodup)
    (hks : ∀ x, ks.any (fun n => n = x)
      = (rs0.Files ++ rs0.Journal).any (fun g => g.Name = x))
    (bcp : pbm.BackupMeta) (rs : pbm.BackupReplset) (em : String → Bool) :
    buildFrame bcp rs (ks.map (fun n => (n, em n))) =
      (specFrame rs0 bcp rs,
       ks.map (fun n => (n, em n || (specFrameData rs0 rs).any (fun f => f.Name = n)))) :=
  calc buildFrame bcp rs (ks.map (fun n => (n, em n)))
      = _ := buildFrame_fold rs0 ks hnd hks (rs.Files ++ rs.Journal)
          { BcpName := bcp.Name, Cmpr := bcp.Compression, Data := [], dbpath := "" } em
    _ = _ := by simp [specFrame, specFrameData, specDbpath]

theorem ChainOk.head_info (env : ChainEnv) (setName : String)
    {bcp : pbm.BackupMeta} {chain : List (pbm.BackupMeta × pbm.BackupReplset)}
    (h : ChainOk env setName bcp chain) :
    ∃ rs, chain.head? = some (bcp, rs) ∧ getRS bcp setName = some rs := by
  cases h with
  | last bcp rs h1 h2 => exact ⟨rs, rfl, h1⟩
  | step bcp bcp' rs rest h1 h2 h3 h4 => exact ⟨rs, rfl, h1⟩

theorem chainLoop_spec (env : ChainEnv) (setName : String) (rs0 : pbm.BackupReplset)
    (ks : List String) (hnd : ks.Nodup)
    (hks : ∀ x, ks.any (fun n => n = x)
      = (rs0.Files ++ rs0.Journal).any (fun g => g.Name = x)) :
    ∀ {bcp : pbm.BackupMeta} {chain : List (pbm.BackupMeta × pbm.BackupReplset)},
      ChainOk env setName bcp chain →
      ∀ rs, getRS bcp setName = some rs →
      ∀ fuel, chain.length ≤ fuel →
      ∀ (em : String → Bool) (acc : List FilesFrame),
      chainLoop env setName fuel bcp rs (ks.map (fun n => (n, em n))) acc =
        some (Except.ok (acc ++ chain.map (fun p => specFrame rs0 p.1 p.2),
          ks.map (fun n => (n, em n || emittedName rs0 chain n)))) := by
  intro bcp chain h
  induction h with
  | last bcp rsC h1 h2 =>
      intro rs hrs fuel hfuel em acc
      have hrseq : rsC = rs := Option.some.inj (h1.symm.trans hrs)
      subst hrseq
      cases fuel with
      | zero => exact absurd hfuel (by simp)
      | succ n =>
          simp only [chainLoop]
          rw [buildFrame_spec rs0 ks hnd hks bcp rsC em]
          rw [if_pos h2]
          simp only [Option.some.injEq, Except.ok.injEq, Prod.mk.injEq]
          refine ⟨by simp, ?_⟩
          refine List.map_congr_left ?_
          intro n hn
          simp [emittedName]
  | step bcp bcp' rsC rest h1 h2 h3 h4 ih =>
      intro rs hrs fuel hfuel em acc
      have hrseq : rsC = rs := Option.some.inj (h1.symm.trans hrs)
      subst hrseq
      cases fuel with
      | zero => exact absurd hfuel (by simp)
      | succ n =>
          simp only [chainLoop]
          rw [buildFrame_spec rs0 ks hnd hks bcp rsC em]
          rw [if_neg h2, h3]
          dsimp only
          obtain ⟨rs', hhead, hget⟩ := ChainOk.head_info env setName h4
          rw [hget]
          dsimp only
          have hlen : rest.length ≤ n := by
            simpa using Nat.succ_le_succ_iff.mp (by simpa using hfuel)
          rw [ih rs' hget n hlen
            (fun n => em n || (specFrameData rs0 rsC).any (fun f => f.Name = n))
            (acc ++ [specFrame rs0 bcp rsC])]
          simp only [Option.some.injEq, Except.ok.injEq, Prod.mk.injEq]
          refine ⟨by simp, ?_⟩
          refine List.map_congr_left ?_
          intro n hn
          simp [emittedName, Bool.or_assoc]

theorem buildDirsGo_spec :
    ∀ (ks : List String) (em : String → Bool) (dirs : List pbm.File) (seen : List String),
      buildDirsGo (ks.map (fun n => (n, em n))) dirs seen =
        dirs ++ dirsSpec (ks.filter (fun n => !em n)) seen := by
  intro ks
  induction ks with
  | nil => intro em dirs seen; simp [buildDirsGo, dirsSpec]
  | cons n ks ih =>
      intro em dirs seen
      cases hem : em n with
      | false =>
          simp only [List.map_cons, buildDirsGo, List.filter_cons, hem, Bool.not_false,
            if_true, dirsSpec]
          by_cases hd : pathDir n ≠ "." ∧ ¬ (seen.contains (pathDir n)) = true
          · rw [if_pos hd, if_pos hd]
            simp only [ih]
            simp
          · rw [if_neg hd, if_neg hd]
            exact ih em dirs seen
      | true =>
          simp only [List.map_cons, buildDirsGo, List.filter_cons, hem, Bool.not_true]
          rw [if_neg (by simp)]
          rw [if_neg (by simp)]
          exact ih em dirs seen

/-- C6: setBcpFiles emits, for each backup in the chain from the target
back to the first backup with an empty source-backup link, one frame
containing exactly those files of that backup's replica-set section
(files plus journal) whose name is in the target name-set and whose Off
and Len are non-negative; and every target name that was never emitted
in any frame contributes one entry to a final synthetic directory-only
frame, deduplicated by parent directory and excluding parent ".". -/
theorem C6_setBcpFiles_plan (env : ChainEnv) (setName : String) (bcp0 : pbm.BackupMeta)
    (rs0 : pbm.BackupReplset) (chain : List (pbm.BackupMeta × pbm.BackupReplset))
    (fuel : Nat)
    (hrs0 : getRS bcp0 setName = some rs0)
    (hch : ChainOk env setName bcp0 chain)
    (hfuel : chain.length ≤ fuel) :
    setBcpFiles env fuel setName bcp0 =
      some (Except.ok (
        chain.map (fun p => specFrame rs0 p.1 p.2) ++
        (if 0 < (dirsSpec ((targetKeys rs0).filter
              (fun n => !emittedName rs0 chain n)) []).length then
          [{ BcpName := bcpDir, Cmpr := "",
             Data := dirsSpec ((targetKeys rs0).filter
               (fun n => !emittedName rs0 chain n)) [],
             dbpath := "" }]
        else []))) := by
  have hnd : (targetKeys rs0).Nodup := targetKeys_fold_nodup _ [] List.nodup_nil
  have hks : ∀ x, (targetKeys rs0).any (fun n => n = x)
      = (rs0.Files ++ rs0.Journal).any (fun g => g.Name = x) := by
    intro x
    unfold targetKeys
    rw [targetKeys_fold_any x _ []]
    simp
  have htf0 : (rs0.Files ++ rs0.Journal).foldl (fun m f => setKey m f.Name false) []
      = (targetKeys rs0).map (fun n => (n, false)) := by
    have h := tf0_eq_targetKeys_map (rs0.Files ++ rs0.Journal) []
    simpa [targetKeys] using h
  simp only [setBcpFiles]
  rw [hrs0]
  dsimp only
  rw [htf0]
  rw [chainLoop_spec env setName rs0 (targetKeys rs0) hnd hks hch rs0 hrs0 fuel hfuel
    (fun _ => false) []]
  dsimp only
  rw [show buildDirs ((targetKeys rs0).map
        (fun n => (n, false || emittedName rs0 chain n)))
      = [] ++ dirsSpec ((targetKeys rs0).filter
          (fun n => !(false || emittedName rs0 chain n))) []
    from buildDirsGo_spec (targetKeys rs0) (fun n => false || emittedName rs0 chain n) [] []]
  simp only [Bool.false_or, List.nil_append]
  by_cases hlen : 0 < (dirsSpec ((targetKeys rs0).filter
      (fun n => !emittedName rs0 chain n)) []).length
  · rw [if_pos hlen, if_pos hlen]
  · rw [if_neg hlen, if_neg hlen]
    simp

/-- Concrete replica-set section of the target backup in the C6 witness:
a.wt carries fresh data, b.wt is unchanged (Off = Len = -1), j1 is the
journal. -/
def rsB1C6 : pbm.BackupReplset :=
  ⟨"rs1", [⟨"d/a.wt", 0, 1024, 100, 420⟩, ⟨"d/b.wt", -1, -1, -1, 420⟩],
    [⟨"d/j1", 0, 0, 50, 420⟩]⟩

/-- Concrete replica-set section of the base backup in the C6 witness. -/
def rsB0C6 : pbm.BackupReplset :=
  ⟨"rs1", [⟨"d/a.wt", 0, 0, 100, 420⟩], [⟨"d/j1", 0, 0, 50, 420⟩]⟩

/-- Concrete base backup of the C6 witness. -/
def bcpB0C6 : pbm.BackupMeta :=
  ⟨"b0", "", [rsB0C6], "s2", Status.done, "2.0.0", "6.0.2"⟩

/-- Concrete target backup of the C6 witness, sourced from b0. -/
def bcpB1C6 : pbm.BackupMeta :=
  ⟨"b1", "b0", [rsB1C6], "s2", Status.done, "2.0.0", "6.0.2"⟩

/-- Lookup environment of the C6 witness. -/
def envC6 : ChainEnv := ⟨fun n => if n = "b0" then some bcpB0C6 else none⟩

/-- Witness for C6 on a two-backup incremental chain: the plan is the
target frame (a.wt range and j1), the base frame (a.wt and j1), and a
directory frame for the never-emitted b.wt. -/
theorem C6_setBcpFiles_plan_witness :
    setBcpFiles envC6 2 "rs1" bcpB1C6 =
    some (Except.ok
      [⟨"b1", "s2", [⟨"d/a.wt", 0, 1024, 100, 420⟩, ⟨"d/j1", 0, 0, 50, 420⟩], ""⟩,
       ⟨"b0", "s2", [⟨"d/a.wt", 0, 0, 100, 420⟩, ⟨"d/j1", 0, 0, 50, 420⟩], ""⟩,
       ⟨"__dir__", "", [⟨"d/b.wt", -1, -1, -1, 0⟩], ""⟩]) := by
  have h := C6_setBcpFiles_plan envC6 "rs1" bcpB1C6 rsB1C6
    [(bcpB1C6, rsB1C6), (bcpB0C6, rsB0C6)] 2
    (by decide)
    (ChainOk.step bcpB1C6 bcpB0C6 rsB1C6 [(bcpB0C6, rsB0C6)]
      (by decide) (by decide) (by decide)
      (ChainOk.last bcpB0C6 rsB0C6 (by decide) (by decide)))
    (by decide)
  rw [h]
  exact congrArg (fun l => some (Except.ok l)) (by decide)

/-! ## C7: copyFiles -/

/-- Decimal digits of a Nat as characters (fuel-driven so the kernel can
evaluate it); models the digit emission of Go `fmt.Sprintf("%d", _)`. -/
def natDigits : Nat → Nat → List Char
  | 0, _ => []
  | fuel + 1, n =>
      if n < 10 then [Char.ofNat (48 + n)]
      else natDigits fuel (n / 10) ++ [Char.ofNat (48 + n % 10)]

/-- Decimal rendering of a Nat. -/
def natToStr (n : Nat) : String := String.mk (natDigits (n + 1) n)

/-- Decimal rendering of an Int, as Go `fmt.Sprintf("%d", _)` renders an
int64. -/
def intToStr (i : Int) : String :=
  if i < 0 then "-" ++ natToStr i.natAbs else natToStr i.natAbs

/-- CopyOp records one observable filesystem action of `copyFiles`:
creating the intermediate directories of a destination, or copying one
decompressed source object to a destination file (with its codec, file
mode, and the optional seek offset and truncation size). -/
inductive CopyOp
  | mkdirAll (dir : String)
  | copyData (src dst : String) (cmpr : String) (mode : Nat)
      (seek : Option Int) (trunc : Option Int)
  deriving DecidableEq, Repr

/-- copyStep mirrors one iteration of the inner
`for _, f := range set.Data` loop of `PhysRestore.copyFiles`: the source
object is
`filepath.Join(set.BcpName, setName, f.Name+set.Cmpr.Suffix())` with the
`.<Off>-<Len>` range suffix appended when `f.Len != 0`; the frame's
recorded dbpath prefix is cut from the destination name (PBM-1058); the
destination's directories are created; for the synthetic directory frame
(`set.BcpName == bcpDir`) the iteration stops there, otherwise the object
is decompressed and copied, seeking to `f.Off` when non-zero and
truncating to `f.Size` when non-zero.  `sfx` stands for the compress
package's `Suffix()`. -/
def copyStep (dbpath setName : String) (sfx : String → String)
    (set : FilesFrame) (ops : List CopyOp) (f : pbm.File) : List CopyOp :=
  let src0 := joinPath3 set.BcpName setName (f.Name ++ sfx set.Cmpr)
  let src := if f.Len ≠ 0 then
      src0 ++ "." ++ intToStr f.Off ++ "-" ++ intToStr f.Len
    else src0
  let fname := if set.dbpath ≠ "" then strTrimPref f.Name set.dbpath
    else f.Name
  let dst := joinPath dbpath fname
  let ops := ops ++ [CopyOp.mkdirAll (pathDir dst)]
  if set.BcpName = bcpDir then ops
  else ops ++ [CopyOp.copyData src dst set.Cmpr f.Fmode
      (if f.Off ≠ 0 then some f.Off else none)
      (if f.Size ≠ 0 then some f.Size else none)]

/-- copyFrame folds `copyStep` over the frame's descriptors, as the
inner loop of `copyFiles` does. -/
def copyFrame (dbpath setName : String) (sfx : String → String)
    (set : FilesFrame) : List CopyOp :=
  set.Data.foldl (copyStep dbpath setName sfx set) []

/-- copyFilesFrom mirrors the frame traversal of `copyFiles`,
`for i := len(r.files) - 1; i >= 0; i--`: with fuel `n` it processes the
frames at indices n-1, n-2, …, 0 in that order. -/
def copyFilesFrom (dbpath setName : String) (sfx : String → String)
    (frames : List FilesFrame) : Nat → List CopyOp
  | 0 => []
  | Nat.succ i =>
      (match frames[i]? with
       | some set => copyFrame dbpath setName sfx set
       | none => []) ++ copyFilesFrom dbpath setName sfx frames i

/-- copyFiles mirrors `PhysRestore.copyFiles`: the frames of the plan
`r.files` are applied from the last emitted to the first. -/
def copyFiles (dbpath setName : String) (sfx : String → String)
    (frames : List FilesFrame) : List CopyOp :=
  copyFilesFrom dbpath setName sfx frames frames.length

/-- copySpecOps is the spec's description of the actions for one file of
one frame: derive the source path, strip the dbpath prefix from the
destination, create the intermediate directories, and copy (with the
conditional seek and truncation) unless the frame is directory-only. -/
def copySpecOps (dbpath setName : String) (sfx : String → String)
    (set : FilesFrame) (f : pbm.File) : List CopyOp :=
  let src0 := joinPath3 set.BcpName setName (f.Name ++ sfx set.Cmpr)
  let src := if f.Len ≠ 0 then
      src0 ++ "." ++ intToStr f.Off ++ "-" ++ intToStr f.Len
    else src0
  let fname := if set.dbpath ≠ "" then strTrimPref f.Name set.dbpath
    else f.Name
  let dst := joinPath dbpath fname
  CopyOp.mkdirAll (pathDir dst) ::
    (if set.BcpName = bcpDir then []
     else [CopyOp.copyData src dst set.Cmpr f.Fmode
        (if f.Off ≠ 0 then some f.Off else none)
        (if f.Size ≠ 0 then some f.Size else none)])

/-- One copy step appends exactly the spec's operations for the file. -/
theorem copyStep_eq (dbpath setName : String) (sfx : String → String)
    (set : FilesFrame) (ops : List CopyOp) (f : pbm.File) :
    copyStep dbpath setName sfx set ops f =
      ops ++ copySpecOps dbpath setName sfx set f := by
  unfold copyStep copySpecOps
  by_cases h : set.BcpName = bcpDir
  · simp [h]
  · simp [h]

/-- Folding `copyStep` from any accumulator appends the concatenation of
the per-file spec operations. -/
theorem copyFrame_fold (dbpath setName : String) (sfx : String → String)
    (set : FilesFrame) :
    ∀ (fs : List pbm.File) (ops0 : List CopyOp),
      fs.foldl (copyStep dbpath setName sfx set) ops0 =
        ops0 ++ fs.flatMap (copySpecOps dbpath setName sfx set) := by
  intro fs
  induction fs with
  | nil => intro ops0; simp
  | cons f fs ih =>
      intro ops0
      simp only [List.foldl_cons, List.flatMap_cons, copyStep_eq]
      rw [ih, List.append_assoc]

/-- One frame's operations are the concatenation of the spec operations
over its descriptors. -/
theorem copyFrame_spec (dbpath setName : String) (sfx : String → String)
    (set : FilesFrame) :
    copyFrame dbpath setName sfx set =
      set.Data.flatMap (copySpecOps dbpath setName sfx set) := by
  unfold copyFrame
  rw [copyFrame_fold]
  simp

/-- The countdown traversal with fuel `n` covers exactly the first `n`
frames, in reverse order. -/
theorem copyFilesFrom_spec (dbpath setName : String) (sfx : String → String)
    (frames : List FilesFrame) :
    ∀ n, n ≤ frames.length →
      copyFilesFrom dbpath setName sfx frames n =
        ((frames.take n).reverse).flatMap
          (copyFrame dbpath setName sfx) := by
  intro n
  induction n with
  | zero => intro h; simp [copyFilesFrom]
  | succ i ih =>
      intro h
      have hi : i < frames.length := Nat.lt_of_succ_le h
      simp only [copyFilesFrom]
      rw [List.getElem?_eq_getElem hi]
      rw [List.take_succ, List.getElem?_eq_getElem hi]
      simp only [Option.toList_some, List.reverse_append,
        List.reverse_cons, List.reverse_nil, List.nil_append,
        List.singleton_append, List.flatMap_cons]
      rw [ih (Nat.le_of_succ_le h)]

/-- C7: copyFiles applies the planned frames in reverse emission order
(the synthetic directory frame and the base backup before later
incremental layers, the target backup last); for each file descriptor the
source is `<backup>/<replset>/<name><codec-suffix>` with the range suffix
`.<Off>-<Len>` exactly when Len is non-zero, the frame's recorded dbpath
prefix is stripped from the destination, the destination's intermediate
directories are created, and — except for directory-only frames, which
stop after the directory creation — the decompressed stream is copied,
seeking to Off exactly when Off is non-zero and truncating to Size
exactly when Size is non-zero. -/
theorem C7_copyFiles_plan :
    (∀ (dbpath setName : String) (sfx : String → String)
        (frames : List FilesFrame),
      copyFiles dbpath setName sfx frames =
        frames.reverse.flatMap (fun set =>
          set.Data.flatMap (copySpecOps dbpath setName sfx set))) ∧
    (∀ (dbpath setName : String) (sfx : String → String)
        (set : FilesFrame) (f : pbm.File),
      set.BcpName = bcpDir →
      copySpecOps dbpath setName sfx set f =
        [CopyOp.mkdirAll (pathDir (joinPath dbpath
          (if set.dbpath ≠ "" then strTrimPref f.Name set.dbpath
           else f.Name)))]) ∧
    (∀ (dbpath setName : String) (sfx : String → String)
        (set : FilesFrame) (f : pbm.File),
      set.BcpName ≠ bcpDir →
      copySpecOps dbpath setName sfx set f =
        [CopyOp.mkdirAll (pathDir (joinPath dbpath
           (if set.dbpath ≠ "" then strTrimPref f.Name set.dbpath
            else f.Name))),
         CopyOp.copyData
           (joinPath3 set.BcpName setName (f.Name ++ sfx set.Cmpr) ++
             (if f.Len ≠ 0 then
                "." ++ intToStr f.Off ++ "-" ++ intToStr f.Len
              else ""))
           (joinPath dbpath
             (if set.dbpath ≠ "" then strTrimPref f.Name set.dbpath
              else f.Name))
           set.Cmpr f.Fmode
           (if f.Off ≠ 0 then some f.Off else none)
           (if f.Size ≠ 0 then some f.Size else none)]) := by
  refine ⟨?_, ?_, ?_⟩
  · intro dbpath setName sfx frames
    unfold copyFiles
    rw [copyFilesFrom_spec dbpath setName sfx frames frames.length
      (le_refl _), List.take_length]
    have hfr : copyFrame dbpath setName sfx = fun set =>
        set.Data.flatMap (copySpecOps dbpath setName sfx set) :=
      funext (copyFrame_spec dbpath setName sfx)
    rw [hfr]
  · intro dbpath setName sfx set f h
    simp [copySpecOps, h]
  · intro dbpath setName sfx set f h
    by_cases hl : f.Len = 0
    · simp [copySpecOps, h, hl]
    · simp [copySpecOps, h, hl, String.append_assoc]

/-- Witness for C7: a concrete two-frame plan (one copy frame with a
ranged and a whole file, one directory-only frame) evaluated end to end,
plus the two per-file shapes at concrete descriptors. -/
theorem C7_copyFiles_plan_witness :
    copyFiles "/data/db" "rs0" (fun _ => ".s2")
        [⟨"b1", "s2", [⟨"a.wt", 2, 3, 7, 420⟩, ⟨"j", 0, 0, 0, 384⟩], ""⟩,
         ⟨"__dir__", "", [⟨"d/sub", -1, -1, -1, 0⟩], ""⟩] =
      [CopyOp.mkdirAll "/data/db/d",
       CopyOp.mkdirAll "/data/db",
       CopyOp.copyData "b1/rs0/a.wt.s2.2-3" "/data/db/a.wt" "s2" 420
         (some 2) (some 7),
       CopyOp.mkdirAll "/data/db",
       CopyOp.copyData "b1/rs0/j.s2" "/data/db/j" "s2" 384 none none] ∧
    copySpecOps "/data/db" "rs0" (fun _ => ".s2")
        ⟨"__dir__", "", [⟨"d/sub", -1, -1, -1, 0⟩], ""⟩
        ⟨"d/sub", -1, -1, -1, 0⟩ =
      [CopyOp.mkdirAll "/data/db/d"] ∧
    copySpecOps "/data/db" "rs0" (fun _ => ".s2")
        ⟨"b1", "s2", [⟨"a.wt", 2, 3, 7, 420⟩, ⟨"j", 0, 0, 0, 384⟩], ""⟩
        ⟨"a.wt", 2, 3, 7, 420⟩ =
      [CopyOp.mkdirAll "/data/db",
       CopyOp.copyData "b1/rs0/a.wt.s2.2-3" "/data/db/a.wt" "s2" 420
         (some 2) (some 7)] := by
  obtain ⟨h1, h2, h3⟩ := C7_copyFiles_plan
  refine ⟨?_, ?_, ?_⟩
  · rw [h1]
    decide
  · rw [h2 "/data/db" "rs0" (fun _ => ".s2")
      ⟨"__dir__", "", [⟨"d/sub", -1, -1, -1, 0⟩], ""⟩
      ⟨"d/sub", -1, -1, -1, 0⟩ (by decide)]
    decide
  · rw [h3 "/data/db" "rs0" (fun _ => ".s2")
      ⟨"b1", "s2", [⟨"a.wt", 2, 3, 7, 420⟩, ⟨"j", 0, 0, 0, 384⟩], ""⟩
      ⟨"a.wt", 2, 3, 7, 420⟩ (by decide)]
    decide

/-! ## C5/C8: prepareBackup and the agent tail

`prepareBackup` runs between `init` and `setTmpConf`; its effectful
dependencies (metadata lookups, the restore-meta write, the external
`version` and `semver` packages, the mongod probe, cluster topology)
enter through an environment.  The `syncPathShards` bookkeeping the
function also performs is receiver state consumed elsewhere and carries
no storage write, so it is not modelled. -/

/-- joinComma models `strings.Join(xs, ",")`. -/
def joinComma : List String → String
  | [] => ""
  | [x] => x
  | x :: xs => x ++ "," ++ joinComma xs

/-- bcpErrG renders a `setBcpFiles` failure as the error value
`prepareBackup` receives: the in-source message for a missing target
section, and the "get source backup" wrap (over an error summarised here
by the missing backup's name) for a failed chain lookup.  `panicNilRS`
never reaches `prepareBackup` as an error (it is a crash, kept apart in
`POut`). -/
def bcpErrG : BcpErr → GErr
  | .noDataRS rs =>
      GErr.base ("no data in the backup for the replica set " ++ rs)
  | .getSrc name => GErr.wrap "get source backup" (GErr.base name)
  | .panicNilRS => GErr.base "nil replica set section"

/-- MongoVer keeps the two fields of the server version document that
`prepareBackup` reads: the version array (abstract) and the version
string. -/
structure MongoVer where
  Version : List Nat
  VersionString : String
  deriving DecidableEq, Repr

/-- PrepEnv provides the outcome of each effectful dependency of
`prepareBackup`, in program order: the backup-meta lookup (the
`GetBackupMeta` / `GetMetaFromStore` pair collapsed to its combined
result), `SetRestoreBackup`, the running PBM version and
`version.CompatibleWith`, `GetMongoVersion`,
`semver.Compare(majmin _, majmin _) == 0`, `checkMongod`, the
backup-chain lookup used by `setBcpFiles` (with its fuel),
`MakeReverseRSMapFunc(r.rsMap)`, this node's replica-set name,
`ClusterMembers` (the shard replica-set names), and
`nodeInfo.IsLeader()`. -/
structure PrepEnv where
  getBcpMeta : Except GErr (Option pbm.BackupMeta)
  setRestoreErr : Option GErr
  pbmVersion : String
  pbmCompatible : String → Bool
  mongoVer : Except GErr MongoVer
  semverMajMinEq : String → String → Bool
  checkMongodRes : Except GErr String
  chain : ChainEnv
  chainFuel : Nat
  mapRevRS : String → String
  nodeSetName : String
  clusterMembersRes : Except GErr (List String)
  isLeader : Bool

/-- POut is the outcome of a `prepareBackup` run: a returned error (or
nil), the nil-pointer panic a broken incremental chain would cause, or
chain fuel exhaustion (no counterpart in the unbounded source loop). -/
inductive POut
  | ret (e : Option GErr)
  | panicked
  | nofuel
  deriving DecidableEq, Repr

/-- prepareBackup mirrors `PhysRestore.prepareBackup`: get and pin the
backup meta, check backup status and PBM/Mongo version compatibility,
probe the mongod binary, build the file plan via `setBcpFiles`, verify
the backup holds no unknown replica set, and finally return
`ErrNoDataForShard` (or, for a leader, a fatal error) when the backup
has no section for this node's (reverse-remapped) replica set.  The
status error message omits the `r.bcp.Error()` suffix (the field is not
modelled); `errors.Wrap(nil, "define mongo version")` returning nil on
an empty version array is reproduced faithfully. -/
def prepareBackup (env : PrepEnv) : POut :=
  match env.getBcpMeta with
  | .error e => .ret (some (GErr.wrap "get backup metadata" e))
  | .ok none => .ret (some (GErr.base "snapshot name doesn't set"))
  | .ok (some bcp) =>
  match env.setRestoreErr with
  | some e => .ret (some (GErr.wrap "set backup name" e))
  | none =>
  if bcp.Status ≠ Status.done then
    .ret (some (GErr.base ("backup wasn't successful: status: " ++
      statusStr bcp.Status)))
  else if env.pbmCompatible bcp.PBMVersion = false then
    .ret (some (GErr.base ("backup version (v" ++ bcp.PBMVersion ++
      ") is not compatible with PBM v" ++ env.pbmVersion)))
  else
  match env.mongoVer with
  | .error e => .ret (some (GErr.wrap "define mongo version" e))
  | .ok mgoV =>
  if mgoV.Version.length < 1 then .ret none
  else if env.semverMajMinEq bcp.MongoVersion mgoV.VersionString = false then
    .ret (some (GErr.base ("backup's Mongo version (" ++ bcp.MongoVersion ++
      ") is not compatible with Mongo " ++ mgoV.VersionString)))
  else
  match env.checkMongodRes with
  | .error e => .ret (some (GErr.wrap "check mongod binary" e))
  | .ok _ =>
  match setBcpFiles env.chain env.chainFuel (env.mapRevRS env.nodeSetName) bcp with
  | none => .nofuel
  | some (.error BcpErr.panicNilRS) => .panicked
  | some (.error e) =>
      .ret (some (GErr.wrap "get data for restore" (bcpErrG e)))
  | some (.ok _) =>
  match env.clusterMembersRes with
  | .error e => .ret (some (GErr.wrap "get cluster members" e))
  | .ok shards =>
  let fl := shards.map env.mapRevRS
  let nors := (bcp.Replsets.filter
    (fun sh => ¬ fl.contains sh.Name)).map pbm.BackupReplset.Name
  if nors.length > 0 then
    .ret (some (GErr.base ("extra/unknown replica set found in the backup: "
      ++ joinComma nors)))
  else if bcp.Replsets.any (fun v => v.Name = env.mapRevRS env.nodeSetName) then
    .ret none
  else if env.isLeader then
    .ret (some (GErr.base "no data for the config server or sole rs in backup"))
  else .ret (some GErr.noDataForShard)

/-- AgentEnv provides the agent-side effectful steps of
`Agent.restorePhysical` that precede the restore: node-info lookup,
`restore.NewPhysical`, whether this node is the primary, and the lock
acquisition result on a primary. -/
structure AgentEnv where
  nodeInfoErr : Option GErr
  newPhysicalErr : Option GErr
  isPrimary : Bool
  acquireRes : Except GErr Bool

/-- restorePhysicalTail mirrors the error handling after
`rstr.Snapshot` returns: an `ErrNoDataForShard` outcome is logged and
turned into a nil return (local success); any other error is returned
as is. -/
def restorePhysicalTail (cfg : RConf) (senv : SnapEnv) : Option GErr :=
  match (Snapshot cfg senv).ret with
  | some e => if e.isNoData then none else some e
  | none => none

/-- restorePhysical mirrors `Agent.restorePhysical`: node info,
`NewPhysical`, the primary-only lock dance (the ignored-error
`lock.Release()` has no modelled effect), then the Snapshot run and its
`ErrNoDataForShard` special case. -/
def restorePhysical (aenv : AgentEnv) (cfg : RConf) (senv : SnapEnv) :
    Option GErr :=
  match aenv.nodeInfoErr with
  | some e => some (GErr.wrap "get node info" e)
  | none =>
  match aenv.newPhysicalErr with
  | some e => some (GErr.wrap "init physical backup" e)
  | none =>
  if aenv.isPrimary then
    match aenv.acquireRes with
    | .error e => some (GErr.wrap "acquiring lock" e)
    | .ok false =>
        some (GErr.base "unbale to run the restore while another operation running")
    | .ok true => restorePhysicalTail cfg senv
  else restorePhysicalTail cfg senv

/-- A trivial chain environment: no source backup can be looked up. -/
def chainTriv : ChainEnv := ⟨fun _ => none⟩

/-- The rendezvous configuration of the concrete C5/C8 runs (a primary
that is not the cluster leader). -/
def cfgC58 : RConf :=
  { isPrimary := true, isClusterLeader := false,
    syncPathNode := ".pbm.restore/r1/rs.rs1/node.n1",
    syncPathRS := ".pbm.restore/r1/rs.rs1/rs",
    syncPathCluster := ".pbm.restore/r1/cluster",
    peersId := 0, shardsId := 1 }

/-- A backup meta whose status is `error` (not `done`). -/
def bcpC5 : pbm.BackupMeta :=
  ⟨"b0", "", [⟨"rs1", [⟨"a.wt", 0, 0, 10, 420⟩], []⟩], "s2",
    Status.error, "2.0.5", "4.4.6"⟩

/-- prepareBackup environment for the C5 run: every dependency healthy,
the backup compatible in every respect except its status. -/
def penvC5 : PrepEnv :=
  { getBcpMeta := .ok (some bcpC5), setRestoreErr := none,
    pbmVersion := "2.0.5", pbmCompatible := fun _ => true,
    mongoVer := .ok ⟨[4, 4, 6], "4.4.6"⟩,
    semverMajMinEq := fun _ _ => true,
    checkMongodRes := .ok "4.4.6",
    chain := chainTriv, chainFuel := 2,
    mapRevRS := fun s => s, nodeSetName := "rs1",
    clusterMembersRes := .ok ["rs1"], isLeader := false }

/-- The error `prepareBackup penvC5` produces. -/
def eC5 : GErr :=
  GErr.base ("backup wasn't successful: status: " ++ statusStr Status.error)

/-- Snapshot environment for the C5 run: init succeeds, prepareBackup
fails with `eC5` (the later steps are never reached). -/
def senvC5 : SnapEnv :=
  { initErr := none, prepareRes := some eC5, tmpConfErr := none,
    tsStarting := .ok Status.starting, tsRunning := .ok Status.running,
    flushErr := none, copyErr := none, prepareDataErr := none,
    recoverErr := none, resetRSErr := none, tsDone := .ok Status.done,
    dumpMetaErr := none }

/-- Counterexample for C5: restoring a backup whose status is not `done`
does return the backup-incompatible error and aborts before flush, but a
rendezvous status object beyond `init` IS written — the deferred
`MarkFailed` saves the node's `.error` object. -/
theorem C5_incompat_counterexample :
    prepareBackup penvC5 = POut.ret (some eC5) ∧
    bcpC5.Status ≠ Status.done ∧
    Event.save (cfgC58.syncPathNode ++ "." ++ statusStr Status.error) SB.errB
      ∈ (Snapshot cfgC58 senvC5).events := by
  refine ⟨by decide, by decide, by decide⟩

/-- C5 (amended): a backup failing the compatibility checks — status not
`done`, incompatible PBM version, or MongoDB major.minor mismatch —
makes `prepareBackup` return the corresponding backup-incompatible
error; `Snapshot` then aborts before the flush step with no state
transitions (no toState calls, no dbpath wipe, `restoreStared` never
set), returns that error to the operator, and its deferred `MarkFailed`
(with `markCluster = true`) writes the error rendezvous objects — so
beyond the `init` heartbeats the node's `.error` object (and, per
leadership, the replica-set and cluster `.error` objects) IS written. -/
theorem C5_incompat_abort :
    (∀ (penv : PrepEnv) (bcp : pbm.BackupMeta),
      penv.getBcpMeta = .ok (some bcp) → penv.setRestoreErr = none →
      bcp.Status ≠ Status.done →
      prepareBackup penv = POut.ret (some (GErr.base
        ("backup wasn't successful: status: " ++ statusStr bcp.Status)))) ∧
    (∀ (penv : PrepEnv) (bcp : pbm.BackupMeta),
      penv.getBcpMeta = .ok (some bcp) → penv.setRestoreErr = none →
      bcp.Status = Status.done →
      penv.pbmCompatible bcp.PBMVersion = false →
      prepareBackup penv = POut.ret (some (GErr.base
        ("backup version (v" ++ bcp.PBMVersion ++
         ") is not compatible with PBM v" ++ penv.pbmVersion)))) ∧
    (∀ (penv : PrepEnv) (bcp : pbm.BackupMeta) (mv : MongoVer),
      penv.getBcpMeta = .ok (some bcp) → penv.setRestoreErr = none →
      bcp.Status = Status.done →
      penv.pbmCompatible bcp.PBMVersion = true →
      penv.mongoVer = .ok mv → 1 ≤ mv.Version.length →
      penv.semverMajMinEq bcp.MongoVersion mv.VersionString = false →
      prepareBackup penv = POut.ret (some (GErr.base
        ("backup's Mongo version (" ++ bcp.MongoVersion ++
         ") is not compatible with Mongo " ++ mv.VersionString)))) ∧
    (∀ (cfg : RConf) (env : SnapEnv) (e : GErr),
      env.initErr = none → env.prepareRes = some e → e.isNoData = false →
      Snapshot cfg env =
        { ret := some e, started := false, done := false,
          markFailed := some (e, true), closeNoerr := false,
          closeCleanup := false,
          events := hbEvents cfg ++ markFailedEvents cfg true }) := by
  refine ⟨?_, ?_, ?_, ?_⟩
  · intro penv bcp h1 h2 h3
    simp only [prepareBackup, h1, h2]
    rw [if_pos h3]
  · intro penv bcp h1 h2 h3 h4
    simp only [prepareBackup, h1, h2]
    rw [if_neg (by simp [h3]), if_pos h4]
  · intro penv bcp mv h1 h2 h3 h4 h5 h6 h7
    simp only [prepareBackup, h1, h2, h5]
    rw [if_neg (by simp [h3]), if_neg (by simp [h4]),
      if_neg (by omega), if_pos h7]
  · intro cfg env e h1 h2 h3
    simp only [Snapshot, h1, h2, snapFinish, h3]
    simp

/-- Witness for C5 at the concrete run: the status-failed backup yields
the backup-incompatible error, it is not `ErrNoDataForShard`, and the
Snapshot outcome is the abort-before-flush with the MarkFailed writes. -/
theorem C5_incompat_abort_witness :
    prepareBackup penvC5 = POut.ret (some eC5) ∧
    eC5.isNoData = false ∧
    Snapshot cfgC58 senvC5 =
      { ret := some eC5, started := false, done := false,
        markFailed := some (eC5, true), closeNoerr := false,
        closeCleanup := false,
        events := hbEvents cfgC58 ++ markFailedEvents cfgC58 true } := by
  obtain ⟨h1, _, _, h4⟩ := C5_incompat_abort
  refine ⟨?_, by decide, ?_⟩
  · exact h1 penvC5 bcpC5 rfl rfl (by decide)
  · exact h4 cfgC58 senvC5 eC5 rfl rfl (by decide)

/-- A backup meta with a section for rs0 only (status and versions all
compatible). -/
def bcpC8 : pbm.BackupMeta :=
  ⟨"b0", "", [⟨"rs0", [⟨"a.wt", 0, 0, 10, 420⟩], []⟩], "s2",
    Status.done, "2.0.5", "4.4.6"⟩

/-- prepareBackup environment for the C8 run: every dependency healthy,
this node in replica set rs1 (absent from the backup), not the cluster
leader. -/
def penvC8 : PrepEnv :=
  { getBcpMeta := .ok (some bcpC8), setRestoreErr := none,
    pbmVersion := "2.0.5", pbmCompatible := fun _ => true,
    mongoVer := .ok ⟨[4, 4, 6], "4.4.6"⟩,
    semverMajMinEq := fun _ _ => true,
    checkMongodRes := .ok "4.4.6",
    chain := chainTriv, chainFuel := 2,
    mapRevRS := fun s => s, nodeSetName := "rs1",
    clusterMembersRes := .ok ["rs0", "rs1"], isLeader := false }

/-- The error `prepareBackup penvC8` actually produces (the wrapped
`setBcpFiles` error, not `ErrNoDataForShard`). -/
def eC8 : GErr :=
  GErr.wrap "get data for restore"
    (GErr.base "no data in the backup for the replica set rs1")

/-- Snapshot environment for the C8 run: init succeeds, prepareBackup
fails with `eC8`. -/
def senvC8 : SnapEnv :=
  { initErr := none, prepareRes := some eC8, tmpConfErr := none,
    tsStarting := .ok Status.starting, tsRunning := .ok Status.running,
    flushErr := none, copyErr := none, prepareDataErr := none,
    recoverErr := none, resetRSErr := none, tsDone := .ok Status.done,
    dumpMetaErr := none }

/-- Agent environment for the C8 run: node info and NewPhysical succeed,
the primary acquires the lock. -/
def aenvC8 : AgentEnv := ⟨none, none, true, .ok true⟩

/-- C8 (code bug): `prepareBackup` can never return `ErrNoDataForShard` —
`setBcpFiles` (called first) already fails with its own
"no data in the backup for the replica set" error under the very
condition (no section for this replica set in the target backup) that
would reach the `ErrNoDataForShard` return.  On the claim's concrete
scenario (rs1 absent from the backup, node not the cluster leader) the
result is the wrapped "get data for restore" error, `errors.Is(err,
ErrNoDataForShard)` is false, Snapshot's defer marks the node failed
(writing the node's `.error` rendezvous object), and the agent's
`restorePhysical` returns the non-nil error instead of nil. -/
theorem C8_noDataForShard_dead :
    (∀ penv : PrepEnv,
      prepareBackup penv ≠ POut.ret (some GErr.noDataForShard)) ∧
    getRS bcpC8 (penvC8.mapRevRS penvC8.nodeSetName) = none ∧
    penvC8.isLeader = false ∧
    prepareBackup penvC8 = POut.ret (some eC8) ∧
    eC8.isNoData = false ∧
    (Snapshot cfgC58 senvC8).markFailed = some (eC8, true) ∧
    Event.save (cfgC58.syncPathNode ++ "." ++ statusStr Status.error) SB.errB
      ∈ (Snapshot cfgC58 senvC8).events ∧
    restorePhysical aenvC8 cfgC58 senvC8 = some eC8 := by
  refine ⟨?_, by decide, by decide, by decide, by decide, by decide,
    by decide, by decide⟩
  intro penv h
  unfold prepareBackup at h
  cases hg : penv.getBcpMeta with
  | error e => rw [hg] at h; simp at h
  | ok ob =>
    rw [hg] at h
    cases ob with
    | none => simp at h
    | some bcp =>
      cases hs : penv.setRestoreErr with
      | some e => rw [hs] at h; simp at h
      | none =>
        rw [hs] at h
        simp only [] at h
        by_cases hst : bcp.Status ≠ Status.done
        · rw [if_pos hst] at h; simp at h
        · rw [if_neg hst] at h
          by_cases hc : penv.pbmCompatible bcp.PBMVersion = false
          · rw [if_pos hc] at h; simp at h
          · rw [if_neg hc] at h
            cases hm : penv.mongoVer with
            | error e => rw [hm] at h; simp at h
            | ok mv =>
              rw [hm] at h
              simp only [] at h
              by_cases hv : mv.Version.length < 1
              · rw [if_pos hv] at h; simp at h
              · rw [if_neg hv] at h
                by_cases hsv :
                    penv.semverMajMinEq bcp.MongoVersion mv.VersionString = false
                · rw [if_pos hsv] at h; simp at h
                · rw [if_neg hsv] at h
                  cases hcm : penv.checkMongodRes with
                  | error e => rw [hcm] at h; simp at h
                  | ok v =>
                    rw [hcm] at h
                    simp only [] at h
                    cases hsb : setBcpFiles penv.chain penv.chainFuel
                        (penv.mapRevRS penv.nodeSetName) bcp with
                    | none => rw [hsb] at h; simp at h
                    | some r =>
                      rw [hsb] at h
                      cases r with
                      | error be =>
                        cases be with
                        | noDataRS rs => simp [bcpErrG] at h
                        | getSrc name => simp [bcpErrG] at h
                        | panicNilRS => simp at h
                      | ok frames =>
                        cases hcl : penv.clusterMembersRes with
                        | error e => rw [hcl] at h; simp at h
                        | ok shards =>
                          rw [hcl] at h
                          simp only [] at h
                          have hany : bcp.Replsets.any
                              (fun v => v.Name = penv.mapRevRS penv.nodeSetName)
                              = true := by
                            unfold setBcpFiles at hsb
                            cases hrs : getRS bcp
                                (penv.mapRevRS penv.nodeSetName) with
                            | none => rw [hrs] at hsb; simp at hsb
                            | some rs =>
                              unfold getRS at hrs
                              rw [List.any_eq_true]
                              exact ⟨rs, List.mem_of_find?_eq_some hrs,
                                by simpa using List.find?_some hrs⟩
                          by_cases hn : ((bcp.Replsets.filter
                              (fun sh => ¬ (shards.map penv.mapRevRS).contains
                                sh.Name)).map pbm.BackupReplset.Name).length > 0
                          · rw [if_pos hn] at h; simp at h
                          · rw [if_neg hn, if_pos hany] at h
                            simp at h

/-! ## C3: failure cleanup on reachable runs

The defer of `Snapshot` skips `MarkFailed` only for an error satisfying
`errors.Is(err, ErrNoDataForShard)`.  On a real run no such error
reaches the defer: the `ErrNoDataForShard` return of `prepareBackup` is
dead code (`C8`), its other returns wrap either in-source messages or
the errors of its dependencies, and the remaining pre-flush steps
produce storage/driver errors.  The reachability enters as provenance
hypotheses: the prepare outcome comes from a `prepareBackup` run whose
dependencies do not supply the sentinel, and neither do the direct
error sources of the other pre-flush steps. -/

/-- A `setBcpFiles` failure never renders as `ErrNoDataForShard`. -/
theorem bcpErrG_isNoData (be : BcpErr) : (bcpErrG be).isNoData = false := by
  cases be <;> simp [bcpErrG, GErr.isNoData]

/-- Any error a `prepareBackup` run returns fails
`errors.Is(err, ErrNoDataForShard)`, provided the errors its effectful
dependencies supply do (as the storage, driver and exec errors of the
running program all do): every return is either an in-source message,
a wrap of a dependency error, or the wrapped `setBcpFiles` error — and
the `ErrNoDataForShard` return itself is unreachable. -/
theorem prepareBackup_ret_not_noData (penv : PrepEnv) (r : GErr)
    (h : prepareBackup penv = POut.ret (some r))
    (hbm : ∀ e, penv.getBcpMeta = Except.error e → e.isNoData = false)
    (hsr : ∀ e, penv.setRestoreErr = some e → e.isNoData = false)
    (hmv : ∀ e, penv.mongoVer = Except.error e → e.isNoData = false)
    (hcm : ∀ e, penv.checkMongodRes = Except.error e → e.isNoData = false)
    (hcl : ∀ e, penv.clusterMembersRes = Except.error e → e.isNoData = false) :
    r.isNoData = false := by
  unfold prepareBackup at h
  cases hg : penv.getBcpMeta with
  | error e =>
    rw [hg] at h
    simp only [POut.ret.injEq, Option.some.injEq] at h
    rw [← h]
    simpa [GErr.isNoData] using hbm e hg
  | ok ob =>
    rw [hg] at h
    cases ob with
    | none =>
      simp only [POut.ret.injEq, Option.some.injEq] at h
      rw [← h]
      simp [GErr.isNoData]
    | some bcp =>
      cases hs : penv.setRestoreErr with
      | some e =>
        rw [hs] at h
        simp only [POut.ret.injEq, Option.some.injEq] at h
        rw [← h]
        simpa [GErr.isNoData] using hsr e hs
      | none =>
        rw [hs] at h
        simp only [] at h
        by_cases hst : bcp.Status ≠ Status.done
        · rw [if_pos hst] at h
          simp only [POut.ret.injEq, Option.some.injEq] at h
          rw [← h]
          simp [GErr.isNoData]
        · rw [if_neg hst] at h
          by_cases hc : penv.pbmCompatible bcp.PBMVersion = false
          · rw [if_pos hc] at h
            simp only [POut.ret.injEq, Option.some.injEq] at h
            rw [← h]
            simp [GErr.isNoData]
          · rw [if_neg hc] at h
            cases hm : penv.mongoVer with
            | error e =>
              rw [hm] at h
              simp only [POut.ret.injEq, Option.some.injEq] at h
              rw [← h]
              simpa [GErr.isNoData] using hmv e hm
            | ok mv =>
              rw [hm] at h
              simp only [] at h
              by_cases hv : mv.Version.length < 1
              · rw [if_pos hv] at h
                simp at h
              · rw [if_neg hv] at h
                by_cases hsv :
                    penv.semverMajMinEq bcp.MongoVersion mv.VersionString = false
                · rw [if_pos hsv] at h
                  simp only [POut.ret.injEq, Option.some.injEq] at h
                  rw [← h]
                  simp [GErr.isNoData]
                · rw [if_neg hsv] at h
                  cases hcmr : penv.checkMongodRes with
                  | error e =>
                    rw [hcmr] at h
                    simp only [POut.ret.injEq, Option.some.injEq] at h
                    rw [← h]
                    simpa [GErr.isNoData] using hcm e hcmr
                  | ok v =>
                    rw [hcmr] at h
                    simp only [] at h
                    cases hsb : setBcpFiles penv.chain penv.chainFuel
                        (penv.mapRevRS penv.nodeSetName) bcp with
                    | none => rw [hsb] at h; simp at h
                    | some rr =>
                      rw [hsb] at h
                      cases rr with
                      | error be =>
                        cases be with
                        | noDataRS rs =>
                          simp only [POut.ret.injEq, Option.some.injEq] at h
                          rw [← h]
                          simp [GErr.isNoData, bcpErrG]
                        | getSrc name =>
                          simp only [POut.ret.injEq, Option.some.injEq] at h
                          rw [← h]
                          simp [GErr.isNoData, bcpErrG]
                        | panicNilRS => simp at h
                      | ok frames =>
                        cases hclr : penv.clusterMembersRes with
                        | error e =>
                          rw [hclr] at h
                          simp only [POut.ret.injEq, Option.some.injEq] at h
                          rw [← h]
                          simpa [GErr.isNoData] using hcl e hclr
                        | ok shards =>
                          rw [hclr] at h
                          simp only [] at h
                          have hany : bcp.Replsets.any
                              (fun v => v.Name = penv.mapRevRS penv.nodeSetName)
                              = true := by
                            unfold setBcpFiles at hsb
                            cases hrs : getRS bcp
                                (penv.mapRevRS penv.nodeSetName) with
                            | none => rw [hrs] at hsb; simp at hsb
                            | some rs =>
                              unfold getRS at hrs
                              rw [List.any_eq_true]
                              exact ⟨rs, List.mem_of_find?_eq_some hrs,
                                by simpa using List.find?_some hrs⟩
                          by_cases hn : ((bcp.Replsets.filter
                              (fun sh => ¬ (shards.map penv.mapRevRS).contains
                                sh.Name)).map pbm.BackupReplset.Name).length > 0
                          · rw [if_pos hn] at h
                            simp only [POut.ret.injEq, Option.some.injEq] at h
                            rw [← h]
                            simp [GErr.isNoData]
                          · rw [if_neg hn, if_pos hany] at h
                            simp at h

/-- Provenance of a pre-flush Snapshot failure: an error returned while
`restoreStared` was never set is the init wrap, the prepareBackup
result, the tmp-config wrap, one of the two toState wraps, or the raw
flush error. -/
theorem Snapshot_preflush_err (cfg : RConf) (env : SnapEnv) (e : GErr)
    (hret : (Snapshot cfg env).ret = some e)
    (hst : (Snapshot cfg env).started = false) :
    (∃ e1, env.initErr = some e1 ∧ e = GErr.wrap "init" e1) ∨
    env.prepareRes = some e ∨
    (∃ e1, env.tmpConfErr = some e1 ∧ e = GErr.wrap "set tmp config" e1) ∨
    (∃ e1, env.tsStarting = Except.error e1 ∧
      e = GErr.wrap "move to running state" e1) ∨
    (∃ e1, env.tsRunning = Except.error e1 ∧
      e = GErr.wrap "moving to state running" e1) ∨
    env.flushErr = some e := by
  simp only [Snapshot] at hret hst
  cases hie : env.initErr with
  | some e1 =>
    simp only [hie, snapFinish, Option.some.injEq] at hret
    exact Or.inl ⟨e1, rfl, hret.symm⟩
  | none =>
  simp only [hie] at hret hst
  cases hpr : env.prepareRes with
  | some e1 =>
    simp only [hpr, snapFinish, Option.some.injEq] at hret
    refine Or.inr (Or.inl ?_)
    exact congrArg some hret
  | none =>
  simp only [hpr] at hret hst
  cases htc : env.tmpConfErr with
  | some e1 =>
    simp only [htc, snapFinish, Option.some.injEq] at hret
    exact Or.inr (Or.inr (Or.inl ⟨e1, rfl, hret.symm⟩))
  | none =>
  simp only [htc] at hret hst
  cases hts1 : env.tsStarting with
  | error e1 =>
    simp only [hts1, snapFinish, Option.some.injEq] at hret
    exact Or.inr (Or.inr (Or.inr (Or.inl ⟨e1, rfl, hret.symm⟩)))
  | ok s1 =>
  simp only [hts1] at hret hst
  cases hts2 : env.tsRunning with
  | error e1 =>
    simp only [hts2, snapFinish, Option.some.injEq] at hret
    exact Or.inr (Or.inr (Or.inr (Or.inr (Or.inl ⟨e1, rfl, hret.symm⟩))))
  | ok s2 =>
  simp only [hts2] at hret hst
  cases hfl : env.flushErr with
  | some e1 =>
    simp only [hfl, snapFinish, Option.some.injEq] at hret
    refine Or.inr (Or.inr (Or.inr (Or.inr (Or.inr ?_))))
    exact congrArg some hret
  | none =>
  simp only [hfl] at hret hst
  cases hcp : env.copyErr with
  | some e1 => simp [hcp, snapFinish] at hst
  | none =>
  simp only [hcp] at hret hst
  cases hpd : env.prepareDataErr with
  | some e1 => simp [hpd, snapFinish] at hst
  | none =>
  simp only [hpd] at hret hst
  cases hrc : env.recoverErr with
  | some e1 => simp [hrc, snapFinish] at hst
  | none =>
  simp only [hrc] at hret hst
  cases hrs : env.resetRSErr with
  | some e1 => simp [hrs, snapFinish] at hst
  | none =>
  simp only [hrs] at hret hst
  cases htd : env.tsDone with
  | error e1 => simp [htd, snapFinish] at hst
  | ok s3 =>
  simp only [htd] at hret hst
  cases hdm : env.dumpMetaErr with
  | some e1 => simp [hdm, snapFinish] at hst
  | none => simp [hdm, snapFinish] at hst

/-- C3: on a reachable run — the prepare outcome produced by a
`prepareBackup` run whose dependencies supply no `ErrNoDataForShard`,
and the other pre-flush steps likewise (in the program those errors come
from storage, the driver, config writes and `waitFiles`, none of which
produces the sentinel) — if Snapshot fails before the flush step has
wiped the data directory (progress does not include `restoreStared`),
the data directory is left intact (no wipe happened and close runs with
cleanup off) and MarkFailed publishes the error status object on the
node's rendezvous object; if Snapshot fails after flush but before the
local restore completes, close runs with cleanup = true, so the data
directory is additionally wiped on close and the failed node can later
rejoin via initial sync. -/
theorem C3_failure_cleanup (cfg : RConf) (env : SnapEnv) (penv : PrepEnv)
    (hprep : POut.ret env.prepareRes = prepareBackup penv)
    (hbm : ∀ e, penv.getBcpMeta = Except.error e → e.isNoData = false)
    (hsr : ∀ e, penv.setRestoreErr = some e → e.isNoData = false)
    (hmv : ∀ e, penv.mongoVer = Except.error e → e.isNoData = false)
    (hcm : ∀ e, penv.checkMongodRes = Except.error e → e.isNoData = false)
    (hcl : ∀ e, penv.clusterMembersRes = Except.error e → e.isNoData = false)
    (hinit : ∀ e, env.initErr = some e → e.isNoData = false)
    (htmp : ∀ e, env.tmpConfErr = some e → e.isNoData = false)
    (hts1 : ∀ e, env.tsStarting = Except.error e → e.isNoData = false)
    (hts2 : ∀ e, env.tsRunning = Except.error e → e.isNoData = false)
    (hfl : ∀ e, env.flushErr = some e → e.isNoData = false) :
    (∀ e, (Snapshot cfg env).ret = some e →
      (Snapshot cfg env).started = false →
      (Snapshot cfg env).markFailed = some (e, true) ∧
      (Snapshot cfg env).closeCleanup = false ∧
      Event.wipeDbpath ∉ (Snapshot cfg env).events ∧
      Event.save (cfg.syncPathNode ++ "." ++ statusStr Status.error) SB.errB
        ∈ (Snapshot cfg env).events) ∧
    (∀ e, (Snapshot cfg env).ret = some e →
      (Snapshot cfg env).started = true →
      (Snapshot cfg env).done = false →
      (Snapshot cfg env).closeCleanup = true) := by
  have hpol := snapshot_failure_policy cfg env
  refine ⟨?_, hpol.2.1⟩
  intro e hret hst
  have hnod : e.isNoData = false := by
    rcases Snapshot_preflush_err cfg env e hret hst with
      ⟨e1, h1, rfl⟩ | hpr | ⟨e1, h1, rfl⟩ | ⟨e1, h1, rfl⟩ | ⟨e1, h1, rfl⟩ | hfe
    · simpa [GErr.isNoData] using hinit e1 h1
    · refine prepareBackup_ret_not_noData penv e ?_ hbm hsr hmv hcm hcl
      rw [hpr] at hprep
      exact hprep.symm
    · simpa [GErr.isNoData] using htmp e1 h1
    · simpa [GErr.isNoData] using hts1 e1 h1
    · simpa [GErr.isNoData] using hts2 e1 h1
    · exact hfl e hfe
  exact hpol.1 e hret hst hnod

/-- A fully healthy prepareBackup environment (this node in rs0, which
the backup covers): its run returns nil. -/
def penvOkW : PrepEnv := { penvC8 with nodeSetName := "rs0" }

/-- Snapshot environment whose only failure is in copyFiles — after the
flush wiped the data directory, before the local restore completed. -/
def envCopyFailW : SnapEnv :=
  { initErr := none, prepareRes := none, tmpConfErr := none,
    tsStarting := .ok Status.starting, tsRunning := .ok Status.running,
    flushErr := none, copyErr := some (GErr.base "io"),
    prepareDataErr := none, recoverErr := none, resetRSErr := none,
    tsDone := .ok Status.done, dumpMetaErr := none }

/-- Witness for C3 at two concrete reachable runs: the pre-flush failure
of `penvC5`/`senvC5` (backup status not done) publishes the node error
object with the data directory intact, and the post-flush copy failure
of `penvOkW`/`envCopyFailW` turns close's cleanup on. -/
theorem C3_failure_cleanup_witness :
    (Snapshot cfgC58 senvC5).markFailed = some (eC5, true) ∧
    (Snapshot cfgC58 senvC5).closeCleanup = false ∧
    Event.wipeDbpath ∉ (Snapshot cfgC58 senvC5).events ∧
    Event.save (cfgC58.syncPathNode ++ "." ++ statusStr Status.error) SB.errB
      ∈ (Snapshot cfgC58 senvC5).events ∧
    (Snapshot cfgC58 envCopyFailW).closeCleanup = true := by
  have hA := (C3_failure_cleanup cfgC58 senvC5 penvC5
    (by decide)
    (by intro e h; simp [penvC5] at h)
    (by intro e h; simp [penvC5] at h)
    (by intro e h; simp [penvC5] at h)
    (by intro e h; simp [penvC5] at h)
    (by intro e h; simp [penvC5] at h)
    (by intro e h; simp [senvC5] at h)
    (by intro e h; simp [senvC5] at h)
    (by intro e h; simp [senvC5] at h)
    (by intro e h; simp [senvC5] at h)
    (by intro e h; simp [senvC5] at h)).1 eC5 rfl rfl
  have hB := (C3_failure_cleanup cfgC58 envCopyFailW penvOkW
    (by decide)
    (by intro e h; simp [penvOkW, penvC8] at h)
    (by intro e h; simp [penvOkW, penvC8] at h)
    (by intro e h; simp [penvOkW, penvC8] at h)
    (by intro e h; simp [penvOkW, penvC8] at h)
    (by intro e h; simp [penvOkW, penvC8] at h)
    (by intro e h; simp [envCopyFailW] at h)
    (by intro e h; simp [envCopyFailW] at h)
    (by intro e h; simp [envCopyFailW] at h)
    (by intro e h; simp [envCopyFailW] at h)
    (by intro e h; simp [envCopyFailW] at h)).2
    (GErr.wrap "copy files" (GErr.base "io")) rfl rfl rfl
  exact ⟨hA.1, hA.2.1, hA.2.2.1, hA.2.2.2, hB⟩
